import Mathlib

/-!
# MLSP (Minimal Latency Streaming Protocol) — verification of the packetization
# and reassembly engine

Shallow embedding of the current protocol revision of the MLSP C library
(`mlsp.c` / `mlsp.h`): the sender-side fragmenter (`mlsp_send`,
`mlsp_send_subframe`), the wire codec (`mlsp_decode_header`) and the
receiver-side collector (`mlsp_receive` with its helpers `mlsp_new_frame`,
`mlsp_new_subframe`, `mlsp_decode_payload`).

Modelling conventions:
* machine integers are `Nat`; wherever C truncates (u8/u16 stores and casts)
  the embedding applies the matching `% 256` / `% 65536`;
* byte buffers owned by the receiver (`malloc`ed regions) are modelled as
  total functions `Nat → Nat` together with an allocation flag and the
  recorded `reserved_size`; `malloc` is assumed to succeed and fresh memory
  is modelled as zero-filled (no proved statement depends on the contents of
  bytes that were never written);
* a UDP datagram is a `List Nat` of byte values; the network socket is
  replaced by an explicit list of delivered datagrams, and `recvfrom`'s
  truncation of a datagram to the receive buffer (header + max payload
  bytes) is applied when a datagram is consumed;
* `fprintf` logging is dropped: it never alters state.
-/

/-- `PACKET_MAX_PAYLOAD` from `mlsp.c`. -/
def PACKET_MAX_PAYLOAD : Nat := 1400

/-- `PACKET_HEADER_SIZE` from `mlsp.c`. -/
def PACKET_HEADER_SIZE : Nat := 8

/-- `MLSP_MAX_SUBFRAMES` from `mlsp.h`. -/
def MLSP_MAX_SUBFRAMES : Nat := 3

/-- `BUFFER_PADDING_SIZE` from `mlsp.c` (extra bytes malloced past
`reserved_size`; it never changes observable behaviour of the engine). -/
def BUFFER_PADDING_SIZE : Nat := 32

/-- `struct mlsp_packet`: one decoded library-level packet. -/
structure MlspPacket where
  framenumber : Nat
  subframes : Nat
  subframe : Nat
  packets : Nat
  packet : Nat
  data : List Nat
  size : Nat
  deriving DecidableEq, Repr

/-- `struct mlsp_collected_frame`: one subframe reassembly slot.
`dataAlloc` models `data != NULL`, `flagsAlloc` models
`received_packets != NULL`. -/
structure CollectedFrame where
  dataAlloc : Bool
  data : Nat → Nat
  actual_size : Nat
  reserved_size : Nat
  packets : Nat
  collected_packets : Nat
  flagsAlloc : Bool
  received_packets : Nat → Nat
  received_packets_size : Nat

instance : Inhabited CollectedFrame :=
  ⟨{ dataAlloc := false
     data := fun _ => 0
     actual_size := 0
     reserved_size := 0
     packets := 0
     collected_packets := 0
     flagsAlloc := false
     received_packets := fun _ => 0
     received_packets_size := 0 }⟩

/-- `struct mlsp_frame` of the current revision (user-level logical frame on
the receive side): `framenumber`, and per subframe a data pointer (`none`
models `NULL`, `some buf` a pointer into a collected buffer) and a size.
Both arrays have `MLSP_MAX_SUBFRAMES` entries. -/
structure mlsp_frame where
  framenumber : Nat
  data : List (Option (Nat → Nat))
  size : List Nat

instance : Inhabited mlsp_frame :=
  ⟨{ framenumber := 0
     data := List.replicate MLSP_MAX_SUBFRAMES none
     size := List.replicate MLSP_MAX_SUBFRAMES 0 }⟩

/-- The user-level logical frame handed to `mlsp_send`: the same
`struct mlsp_frame`, with the payload bytes of each subframe spelled out as
lists (the caller's buffers). -/
structure SendFrame where
  framenumber : Nat
  data : List (List Nat)
  size : List Nat

/-- `struct mlsp` — the part of the endpoint state the engine operates on
(socket and address omitted: network I/O is replaced by explicit datagram
lists). -/
structure MlspState where
  subframes : Nat
  framenumber : Nat
  collected : List CollectedFrame
  received_subframes : List Nat
  frame : mlsp_frame

/-- Map with the position index, used to model C loops that update an array
in place (`for(s=0;s<...;++s) a[s] = f(s, a[s])`). -/
def mapWithIndex (f : Nat → α → α) : Nat → List α → List α
  | _, [] => []
  | k, a :: as => f k a :: mapWithIndex f (k + 1) as

/-- The zeroed endpoint produced by `mlsp_init_common` (after the
`*m = zero_mlsp` memset and the `subframes` clamp); `subframes` here is the
already-clamped effective value. -/
def mlsp_initial (subframes : Nat) : MlspState :=
  { subframes := subframes
    framenumber := 0
    collected := List.replicate MLSP_MAX_SUBFRAMES default
    received_subframes := List.replicate MLSP_MAX_SUBFRAMES 0
    frame := default }

/-- `mlsp_init_common`, lines 86-103: fails (`NULL`) when the configured
subframes exceed `MLSP_MAX_SUBFRAMES`; `0` is treated as `1`. -/
def mlsp_init_common (cfg_subframes : Nat) : Option MlspState :=
  if cfg_subframes > MLSP_MAX_SUBFRAMES then none
  else some (mlsp_initial (if cfg_subframes > 0 then cfg_subframes else 1))

/-! ## Sender (lines 199-233) -/

/-- `mlsp_send_subframe`, lines 199-224.  Returns the list of datagrams
handed to `sendto`, in order.  `msubframes` is `m->subframes` (written into
header byte 2 as a `u8`).  `packets` is a C `uint16_t`, hence the
`% 65536`. -/
def mlsp_send_subframe (msubframes framenumber subframe : Nat)
    (data : List Nat) (data_size : Nat) : List (List Nat) :=
  let packets := (data_size / PACKET_MAX_PAYLOAD +
    (if data_size % PACKET_MAX_PAYLOAD ≠ 0 then 1 else 0)) % 65536
  let last_packet_size := if data_size % PACKET_MAX_PAYLOAD ≠ 0
    then data_size % PACKET_MAX_PAYLOAD else PACKET_MAX_PAYLOAD
  (List.range packets).map (fun p =>
    let sz := if p < packets - 1 then PACKET_MAX_PAYLOAD else last_packet_size
    [framenumber % 256, framenumber / 256 % 256,
     msubframes % 256, subframe % 256,
     packets % 256, packets / 256 % 256,
     p % 256, p / 256 % 256]
    ++ (List.range sz).map (fun j => data.getD (p * PACKET_MAX_PAYLOAD + j) 0))

/-- `mlsp_send`, lines 226-233: all subframes in order (the UDP sends are
assumed to succeed — the lossless channel of the round-trip claims). -/
def mlsp_send (msubframes : Nat) (F : SendFrame) : List (List Nat) :=
  ((List.range msubframes).map (fun i =>
    mlsp_send_subframe msubframes F.framenumber i
      (F.data.getD i []) (F.size.getD i 0))).flatten

/-! ## Wire codec (lines 312-362) -/

/-- Header field `framenumber` (little-endian u16 at offset 0). -/
def hdr_framenumber (dg : List Nat) : Nat := dg.getD 0 0 + 256 * dg.getD 1 0

/-- Header field `subframes` (u8 at offset 2). -/
def hdr_subframes (dg : List Nat) : Nat := dg.getD 2 0

/-- Header field `subframe` (u8 at offset 3). -/
def hdr_subframe (dg : List Nat) : Nat := dg.getD 3 0

/-- Header field `packets` (little-endian u16 at offset 4). -/
def hdr_packets (dg : List Nat) : Nat := dg.getD 4 0 + 256 * dg.getD 5 0

/-- Header field `packet` (little-endian u16 at offset 6). -/
def hdr_packet (dg : List Nat) : Nat := dg.getD 6 0 + 256 * dg.getD 7 0

/-- `mlsp_decode_header`, lines 312-362.  `none` models `MLSP_ERROR`.
The checks appear in exactly the source order. -/
def mlsp_decode_header (m : MlspState) (dg : List Nat) : Option MlspPacket :=
  if dg.length < PACKET_HEADER_SIZE then none
  else if dg.length - PACKET_HEADER_SIZE > PACKET_MAX_PAYLOAD then none
  else if hdr_subframe dg ≥ hdr_subframes dg then none
  else if hdr_packet dg ≥ hdr_packets dg then none
  else if hdr_framenumber dg < m.framenumber then none
  else if hdr_subframes dg > m.subframes ∨ hdr_subframe dg ≥ m.subframes then none
  else some
    { framenumber := hdr_framenumber dg
      subframes := hdr_subframes dg
      subframe := hdr_subframe dg
      packets := hdr_packets dg
      packet := hdr_packet dg
      data := dg.drop PACKET_HEADER_SIZE
      size := dg.length - PACKET_HEADER_SIZE }

/-! ## Receiver helpers (lines 364-435) -/

/-- The per-slot reset performed by `mlsp_new_frame`'s loop body
(lines 393-401): counters to zero, flags `memset` to zero when the flags
array is allocated; the payload buffer is untouched. -/
def resetSlot (c : CollectedFrame) : CollectedFrame :=
  { c with
    actual_size := 0
    packets := 0
    collected_packets := 0
    received_packets := if c.flagsAlloc
      then (fun i => if i < c.received_packets_size then 0 else c.received_packets i)
      else c.received_packets }

/-- `mlsp_new_frame`, lines 376-402 (the incomplete-frame logging has no
state effect and is dropped). -/
def mlsp_new_frame (m : MlspState) (framenumber : Nat) : MlspState :=
  { m with
    framenumber := framenumber
    received_subframes := List.replicate MLSP_MAX_SUBFRAMES 0
    collected := mapWithIndex
      (fun s c => if s < m.subframes then resetSlot c else c) 0 m.collected }

/-- `mlsp_new_subframe`, lines 404-435.  `malloc` is assumed to succeed;
fresh memory is modelled zero-filled. -/
def mlsp_new_subframe (c : CollectedFrame) (udp : MlspPacket) : CollectedFrame :=
  let c1 : CollectedFrame :=
    { c with
      actual_size := 0
      packets := udp.packets
      collected_packets := 0 }
  let c2 : CollectedFrame :=
    if c1.reserved_size < udp.packets * PACKET_MAX_PAYLOAD then
      { c1 with
        dataAlloc := true
        data := fun _ => 0
        reserved_size := udp.packets * PACKET_MAX_PAYLOAD }
    else c1
  let c3 : CollectedFrame :=
    if c2.received_packets_size < udp.packets then
      { c2 with
        flagsAlloc := true
        received_packets := fun _ => 0
        received_packets_size := udp.packets }
    else c2
  { c3 with received_packets := fun i => if i < udp.packets then 0 else c3.received_packets i }

/-- `mlsp_decode_payload`, lines 364-374: build the emitted user frame from
the previous `m->frame` (entries at or past `m->subframes` are left as they
were). -/
def mlsp_decode_payload (m : MlspState) (udp : MlspPacket) (old : mlsp_frame) :
    mlsp_frame :=
  { framenumber := m.framenumber
    size := (List.range MLSP_MAX_SUBFRAMES).map (fun i =>
      if i < m.subframes then
        (if i < udp.subframes then (m.collected.getD i default).actual_size else 0)
      else old.size.getD i 0)
    data := (List.range MLSP_MAX_SUBFRAMES).map (fun i =>
      if i < m.subframes then
        (if i < udp.subframes then some (m.collected.getD i default).data else none)
      else old.data.getD i none) }

/-- The count computed by the loop at lines 297-300:
`for(i=0;i<s;++i) received += m->received_subframes[i]`. -/
def sumFirst (s : Nat) (rs : List Nat) : Nat :=
  ((List.range s).map (fun i => rs.getD i 0)).sum

/-! ## Receiver state machine (lines 252-310) -/

/-- Lines 272-279 of `mlsp_receive`: frame switch on a strictly newer
framenumber, then subframe preparation when the slot's buffer is
unallocated or its recorded packet count disagrees with the packet's. -/
def mlsp_prepare (m : MlspState) (udp : MlspPacket) : MlspState :=
  let m1 := if m.framenumber < udp.framenumber
    then mlsp_new_frame m udp.framenumber else m
  let slot := m1.collected.getD udp.subframe default
  if ¬ slot.dataAlloc ∨ slot.packets ≠ udp.packets then
    { m1 with collected := m1.collected.set udp.subframe (mlsp_new_subframe slot udp) }
  else m1

/-- The slot update performed by a successful deposit (lines 287-291):
flag set, `memcpy` of the payload at offset `packet * PACKET_MAX_PAYLOAD`,
counter and size update. -/
def depositedSlot (slot : CollectedFrame) (udp : MlspPacket) : CollectedFrame :=
  { slot with
    received_packets := fun q => if q = udp.packet then 1 else slot.received_packets q
    data := fun idx =>
      if udp.packet * PACKET_MAX_PAYLOAD ≤ idx ∧
         idx < udp.packet * PACKET_MAX_PAYLOAD + udp.size
      then udp.data.getD (idx - udp.packet * PACKET_MAX_PAYLOAD) 0
      else slot.data idx
    collected_packets := slot.collected_packets + 1
    actual_size := slot.actual_size + udp.size }

/-- Lines 281-308 of `mlsp_receive`: duplicate check, deposit
(flag set, `memcpy` at `packet * PACKET_MAX_PAYLOAD`, counter and size
update), subframe completion, frame completion and emission. -/
def mlsp_deposit (m : MlspState) (udp : MlspPacket) :
    MlspState × Option mlsp_frame :=
  let slot := m.collected.getD udp.subframe default
  if slot.received_packets udp.packet ≠ 0 then (m, none)
  else
    let slot' : CollectedFrame := depositedSlot slot udp
    let m1 := { m with collected := m.collected.set udp.subframe slot' }
    if slot'.collected_packets = udp.packets then
      let m2 := { m1 with received_subframes := m1.received_subframes.set udp.subframe 1 }
      if sumFirst udp.subframes m2.received_subframes ≠ udp.subframes then (m2, none)
      else
        let fr := mlsp_decode_payload m2 udp m2.frame
        ({ m2 with frame := fr }, some fr)
    else (m1, none)

/-- One iteration of the `while(1)` loop of `mlsp_receive` on a delivered
datagram: `recvfrom` (truncating to the receive buffer), header decode,
prepare, deposit.  Result `none` means the loop would continue. -/
def mlsp_receive_step (m : MlspState) (dgIn : List Nat) :
    MlspState × Option mlsp_frame :=
  let dg := dgIn.take (PACKET_HEADER_SIZE + PACKET_MAX_PAYLOAD)
  match mlsp_decode_header m dg with
  | none => (m, none)
  | some udp => mlsp_deposit (mlsp_prepare m udp) udp

/-- `mlsp_receive`, lines 252-310, driven by an explicit list of delivered
datagrams: consume datagrams until a frame is returned; an exhausted list
models a receive timeout (`NULL`/`MLSP_TIMEOUT`, no state change). -/
def mlsp_receive : MlspState → List (List Nat) → MlspState × Option mlsp_frame
  | m, [] => (m, none)
  | m, dg :: rest =>
    match mlsp_receive_step m dg with
    | (m1, some fr) => (m1, some fr)
    | (m1, none) => mlsp_receive m1 rest

/-- Repeated calls of `mlsp_receive` over one delivered datagram sequence:
the final state and every frame emitted along the way, in order. -/
def mlsp_run : MlspState → List (List Nat) → MlspState × List mlsp_frame
  | m, [] => (m, [])
  | m, dg :: rest =>
    let s := mlsp_receive_step m dg
    let r := mlsp_run s.1 rest
    (r.1, s.2.toList ++ r.2)

/-- The allocation consistency the receive loop maintains for every slot:
the recorded packet count never exceeds what the payload buffer was
reserved for (`mlsp_new_subframe` establishes it, `mlsp_new_frame` resets
`packets` to 0, a deposit changes neither field). -/
def slotInvariant (m : MlspState) : Prop :=
  ∀ s, s < MLSP_MAX_SUBFRAMES →
    (m.collected.getD s default).packets * PACKET_MAX_PAYLOAD
      ≤ (m.collected.getD s default).reserved_size

/-- `⌈sz / PACKET_MAX_PAYLOAD⌉`: the untruncated packet count of a subframe
of `sz` bytes (the value the sender's `packets` expression computes whenever
it fits a `uint16_t`). -/
def ceilPackets (sz : Nat) : Nat :=
  (sz + (PACKET_MAX_PAYLOAD - 1)) / PACKET_MAX_PAYLOAD

/-- The datagram `mlsp_send_subframe` builds for packet `p` (header bytes
then payload window), with the `packets` header value passed explicitly. -/
def subframe_dg (msubframes f subframe : Nat) (data : List Nat)
    (data_size packets p : Nat) : List Nat :=
  [f % 256, f / 256 % 256,
   msubframes % 256, subframe % 256,
   packets % 256, packets / 256 % 256,
   p % 256, p / 256 % 256]
  ++ (List.range (if p < packets - 1 then PACKET_MAX_PAYLOAD
      else if data_size % PACKET_MAX_PAYLOAD ≠ 0 then data_size % PACKET_MAX_PAYLOAD
      else PACKET_MAX_PAYLOAD)).map
    (fun j => data.getD (p * PACKET_MAX_PAYLOAD + j) 0)

/-- Shared part of the round-trip reassembly invariant: the endpoint
(configured for `n` subframes) has fully collected subframes `0 .. i-1`
of a frame with per-subframe payloads `data` and sizes `sizes`, and the
slots past `i` are untouched. -/
def BaseInv (n : Nat) (data : List (List Nat)) (sizes : List Nat) (i : Nat)
    (m : MlspState) : Prop :=
  m.subframes = n
  ∧ m.collected.length = MLSP_MAX_SUBFRAMES
  ∧ m.received_subframes.length = MLSP_MAX_SUBFRAMES
  ∧ (∀ j, j < MLSP_MAX_SUBFRAMES →
      m.received_subframes.getD j 0 = if j < i then 1 else 0)
  ∧ (∀ j, j < i → j < MLSP_MAX_SUBFRAMES →
      (m.collected.getD j default).actual_size = sizes.getD j 0
      ∧ (∀ idx, idx < sizes.getD j 0 →
          (m.collected.getD j default).data idx = (data.getD j []).getD idx 0))
  ∧ (∀ j, i < j → j < MLSP_MAX_SUBFRAMES →
      (m.collected.getD j default).dataAlloc = false
      ∧ (m.collected.getD j default).reserved_size = 0
      ∧ (m.collected.getD j default).packets = 0)

/-- Round-trip invariant between datagrams: `BaseInv` plus the state of
slot `i` — untouched when no packet of subframe `i` arrived yet (`p = 0`),
prepared and holding exactly the first `p` packets otherwise. -/
def SubInv (n : Nat) (data : List (List Nat)) (sizes : List Nat) (i p : Nat)
    (m : MlspState) : Prop :=
  BaseInv n data sizes i m
  ∧ (p = 0 →
      (m.collected.getD i default).dataAlloc = false
      ∧ (m.collected.getD i default).reserved_size = 0
      ∧ (m.collected.getD i default).packets = 0)
  ∧ (0 < p →
      (m.collected.getD i default).dataAlloc = true
      ∧ (m.collected.getD i default).packets = ceilPackets (sizes.getD i 0)
      ∧ (m.collected.getD i default).collected_packets = p
      ∧ (m.collected.getD i default).actual_size = p * PACKET_MAX_PAYLOAD
      ∧ (∀ q, q < ceilPackets (sizes.getD i 0) →
          (m.collected.getD i default).received_packets q = if q < p then 1 else 0)
      ∧ (∀ idx, idx < p * PACKET_MAX_PAYLOAD →
          (m.collected.getD i default).data idx = (data.getD i []).getD idx 0))

/-- Round-trip invariant right after subframe preparation: `BaseInv` plus a
prepared slot `i` holding exactly the first `p` packets (possibly 0). -/
def ReadyInv (n : Nat) (data : List (List Nat)) (sizes : List Nat) (i p : Nat)
    (m : MlspState) : Prop :=
  BaseInv n data sizes i m
  ∧ (m.collected.getD i default).dataAlloc = true
  ∧ (m.collected.getD i default).packets = ceilPackets (sizes.getD i 0)
  ∧ (m.collected.getD i default).collected_packets = p
  ∧ (m.collected.getD i default).actual_size = p * PACKET_MAX_PAYLOAD
  ∧ (∀ q, q < ceilPackets (sizes.getD i 0) →
      (m.collected.getD i default).received_packets q = if q < p then 1 else 0)
  ∧ (∀ idx, idx < p * PACKET_MAX_PAYLOAD →
      (m.collected.getD i default).data idx = (data.getD i []).getD idx 0)

example :
    ((mlsp_run (mlsp_initial 1)
      (mlsp_send 1 { framenumber := 7, data := [[1, 2, 3]], size := [3] })).2.map
      (fun fr => fr.framenumber)) = [7] := by decide

/-! ## List access helpers -/

theorem lgetD_set_eq {α : Type} (l : List α) (k : Nat) (x d : α)
    (h : k < l.length) : (l.set k x).getD k d = x := by
  simp [List.getD_eq_getElem?_getD, List.getElem?_set_self, h]

theorem lgetD_set_ne {α : Type} (l : List α) (j k : Nat) (x : α) (d : α)
    (h : j ≠ k) : (l.set k x).getD j d = l.getD j d := by
  simp [List.getD_eq_getElem?_getD, List.getElem?_set_ne (Ne.symm h)]

theorem lgetD_range_map {α : Type} (f : Nat → α) (s j : Nat) (d : α)
    (h : j < s) : ((List.range s).map f).getD j d = f j := by
  simp [List.getD_eq_getElem?_getD, List.getElem?_map, List.getElem?_range, h]

theorem lgetD_replicate {α : Type} (n j : Nat) (x d : α) (h : j < n) :
    (List.replicate n x).getD j d = x := by
  simp [List.getD_eq_getElem?_getD, List.getElem?_replicate, h]

theorem lgetD_append_left {α : Type} (l l' : List α) (d : α) (n : Nat)
    (h : n < l.length) : (l ++ l').getD n d = l.getD n d :=
  List.getD_append l l' d n h

theorem mapWithIndex_length {α : Type} (f : Nat → α → α) :
    ∀ (k : Nat) (l : List α), (mapWithIndex f k l).length = l.length := by
  intro k l
  induction l generalizing k with
  | nil => rfl
  | cons a as ih => simp [mapWithIndex, ih]

theorem mapWithIndex_getD {α : Type} (f : Nat → α → α) :
    ∀ (l : List α) (k j : Nat) (d : α), j < l.length →
      (mapWithIndex f k l).getD j d = f (k + j) (l.getD j d) := by
  intro l
  induction l with
  | nil => intro k j d h; simp at h
  | cons a as ih =>
    intro k j d h
    cases j with
    | zero => simp [mapWithIndex]
    | succ j' =>
      have hj : j' < as.length := by simpa using h
      simp only [mapWithIndex, List.getD_cons_succ]
      rw [ih (k + 1) j' d hj]
      ring_nf

theorem headI_mem {α : Type} [Inhabited α] (l : List α) (h : 0 < l.length) :
    l.headI ∈ l := by
  cases l with
  | nil => simp at h
  | cons a as => simp [List.headI]

theorem sumFirst_succ (s : Nat) (rs : List Nat) :
    sumFirst (s + 1) rs = sumFirst s rs + rs.getD s 0 := by
  simp [sumFirst, List.range_succ]

theorem sumFirst_of_pointwise (rs : List Nat) (k : Nat) :
    ∀ s : Nat, (∀ j, j < s → rs.getD j 0 = if j < k then 1 else 0) →
      sumFirst s rs = min k s := by
  intro s
  induction s with
  | zero => intro _; simp [sumFirst]
  | succ s' ih =>
    intro h
    rw [sumFirst_succ, ih (fun j hj => h j (Nat.lt_succ_of_lt hj)),
      h s' (Nat.lt_succ_self s')]
    rcases Nat.lt_or_ge s' k with hlt | hge
    · simp only [if_pos hlt]
      omega
    · simp only [if_neg (Nat.not_lt.mpr hge)]
      omega

theorem u16_roundtrip (a : Nat) (h : a < 65536) : a % 256 + 256 * (a / 256 % 256) = a := by
  omega

/-! ## Decode and step characterizations -/

theorem mlsp_decode_header_inv (m : MlspState) (dg : List Nat) (udp : MlspPacket)
    (h : mlsp_decode_header m dg = some udp) :
    PACKET_HEADER_SIZE ≤ dg.length ∧
    dg.length ≤ PACKET_HEADER_SIZE + PACKET_MAX_PAYLOAD ∧
    udp.framenumber = hdr_framenumber dg ∧
    udp.subframes = hdr_subframes dg ∧
    udp.subframe = hdr_subframe dg ∧
    udp.packets = hdr_packets dg ∧
    udp.packet = hdr_packet dg ∧
    udp.data = dg.drop PACKET_HEADER_SIZE ∧
    udp.size = dg.length - PACKET_HEADER_SIZE ∧
    udp.size ≤ PACKET_MAX_PAYLOAD ∧
    udp.subframe < udp.subframes ∧
    udp.packet < udp.packets ∧
    m.framenumber ≤ udp.framenumber ∧
    udp.subframes ≤ m.subframes ∧
    udp.subframe < m.subframes := by
  unfold mlsp_decode_header at h
  split_ifs at h with h1 h2 h3 h4 h5 h6
  injection h with h
  subst h
  refine ⟨Nat.le_of_not_lt h1, ?_, rfl, rfl, rfl, rfl, rfl, rfl, rfl,
    Nat.le_of_not_lt h2, Nat.lt_of_not_le h3, Nat.lt_of_not_le h4,
    Nat.le_of_not_lt h5,
    Nat.le_of_not_lt (fun hc => h6 (Or.inl hc)),
    Nat.lt_of_not_le (fun hc => h6 (Or.inr hc))⟩
  unfold PACKET_HEADER_SIZE PACKET_MAX_PAYLOAD at h2 ⊢
  unfold PACKET_HEADER_SIZE at h1
  omega

theorem decode_some_take (m : MlspState) (dg : List Nat) (udp : MlspPacket)
    (h : mlsp_decode_header m dg = some udp) :
    dg.take (PACKET_HEADER_SIZE + PACKET_MAX_PAYLOAD) = dg := by
  have hinv := mlsp_decode_header_inv m dg udp h
  exact List.take_of_length_le hinv.2.1

theorem receive_step_of_decode_none (m : MlspState) (dg : List Nat)
    (h : mlsp_decode_header m (dg.take (PACKET_HEADER_SIZE + PACKET_MAX_PAYLOAD)) = none) :
    mlsp_receive_step m dg = (m, none) := by
  simp only [mlsp_receive_step]
  rw [h]

theorem receive_step_of_decode_some (m : MlspState) (dg : List Nat) (udp : MlspPacket)
    (h : mlsp_decode_header m (dg.take (PACKET_HEADER_SIZE + PACKET_MAX_PAYLOAD)) = some udp) :
    mlsp_receive_step m dg = mlsp_deposit (mlsp_prepare m udp) udp := by
  simp only [mlsp_receive_step]
  rw [h]

/-! ## Framenumber bookkeeping lemmas -/

theorem prod_snd_pair {A B : Type} (a : A) (b : B) : (a, b).2 = b := rfl

theorem prod_fst_pair {A B : Type} (a : A) (b : B) : (a, b).1 = a := rfl

theorem mlsp_prepare_framenumber (m : MlspState) (udp : MlspPacket) :
    (mlsp_prepare m udp).framenumber =
      if m.framenumber < udp.framenumber then udp.framenumber else m.framenumber := by
  simp only [mlsp_prepare]
  split_ifs <;> rfl

theorem mlsp_deposit_framenumber (m : MlspState) (udp : MlspPacket) :
    (mlsp_deposit m udp).1.framenumber = m.framenumber := by
  simp only [mlsp_deposit]
  split_ifs <;> rfl

theorem mlsp_deposit_emit_framenumber (m : MlspState) (udp : MlspPacket)
    (fr : mlsp_frame) (h : (mlsp_deposit m udp).2 = some fr) :
    fr.framenumber = m.framenumber := by
  simp only [mlsp_deposit] at h
  split_ifs at h with h1 h2 h3
  all_goals simp only [prod_snd_pair] at h
  all_goals first
    | (injection h with h; subst h; rfl)
    | exact absurd h (by simp)

theorem mlsp_receive_step_fn_mono (m : MlspState) (dg : List Nat) :
    m.framenumber ≤ (mlsp_receive_step m dg).1.framenumber := by
  cases hd : mlsp_decode_header m (dg.take (PACKET_HEADER_SIZE + PACKET_MAX_PAYLOAD)) with
  | none => rw [receive_step_of_decode_none m dg hd]
  | some udp =>
    rw [receive_step_of_decode_some m dg udp hd, mlsp_deposit_framenumber,
      mlsp_prepare_framenumber]
    split_ifs with h
    · exact Nat.le_of_lt h
    · exact Nat.le_refl _

theorem mlsp_receive_step_emit_fn (m : MlspState) (dg : List Nat) (fr : mlsp_frame)
    (h : (mlsp_receive_step m dg).2 = some fr) :
    fr.framenumber = (mlsp_receive_step m dg).1.framenumber := by
  cases hd : mlsp_decode_header m (dg.take (PACKET_HEADER_SIZE + PACKET_MAX_PAYLOAD)) with
  | none =>
    rw [receive_step_of_decode_none m dg hd] at h
    exact absurd h (by simp)
  | some udp =>
    rw [receive_step_of_decode_some m dg udp hd] at h ⊢
    rw [mlsp_deposit_emit_framenumber _ _ _ h, mlsp_deposit_framenumber]

theorem mlsp_run_cons (m : MlspState) (dg : List Nat) (rest : List (List Nat)) :
    mlsp_run m (dg :: rest) =
      ((mlsp_run (mlsp_receive_step m dg).1 rest).1,
       (mlsp_receive_step m dg).2.toList ++ (mlsp_run (mlsp_receive_step m dg).1 rest).2) :=
  rfl

theorem mlsp_run_fn_mono (dgs : List (List Nat)) : ∀ m : MlspState,
    m.framenumber ≤ (mlsp_run m dgs).1.framenumber := by
  induction dgs with
  | nil => intro m; exact Nat.le_refl _
  | cons dg rest ih =>
    intro m
    rw [mlsp_run_cons]
    exact Nat.le_trans (mlsp_receive_step_fn_mono m dg) (ih _)

theorem mlsp_run_emit_ge (dgs : List (List Nat)) : ∀ (m : MlspState) (fr : mlsp_frame),
    fr ∈ (mlsp_run m dgs).2 → m.framenumber ≤ fr.framenumber := by
  induction dgs with
  | nil => intro m fr h; exact absurd h (by simp [mlsp_run])
  | cons dg rest ih =>
    intro m fr h
    rw [mlsp_run_cons] at h
    rcases List.mem_append.mp h with hl | hr
    · have he : (mlsp_receive_step m dg).2 = some fr := by
        cases hs : (mlsp_receive_step m dg).2 with
        | none => rw [hs] at hl; exact absurd hl (by simp)
        | some fr' => rw [hs] at hl; simp at hl; rw [hl]
      rw [mlsp_receive_step_emit_fn m dg fr he]
      exact mlsp_receive_step_fn_mono m dg
    · exact Nat.le_trans (mlsp_receive_step_fn_mono m dg) (ih _ fr hr)

theorem mlsp_run_emit_le_final (dgs : List (List Nat)) :
    ∀ (m : MlspState) (fr : mlsp_frame),
    fr ∈ (mlsp_run m dgs).2 → fr.framenumber ≤ (mlsp_run m dgs).1.framenumber := by
  induction dgs with
  | nil => intro m fr h; exact absurd h (by simp [mlsp_run])
  | cons dg rest ih =>
    intro m fr h
    rw [mlsp_run_cons] at h ⊢
    rcases List.mem_append.mp h with hl | hr
    · have he : (mlsp_receive_step m dg).2 = some fr := by
        cases hs : (mlsp_receive_step m dg).2 with
        | none => rw [hs] at hl; exact absurd hl (by simp)
        | some fr' => rw [hs] at hl; simp at hl; rw [hl]
      rw [mlsp_receive_step_emit_fn m dg fr he]
      exact mlsp_run_fn_mono rest _
    · exact ih _ fr hr

theorem chain_le_of_le (a b : Nat) (l : List Nat) (hab : a ≤ b)
    (h : List.Chain (· ≤ ·) b l) : List.Chain (· ≤ ·) a l := by
  cases h with
  | nil => exact List.Chain.nil
  | cons hbc hc => exact List.Chain.cons (Nat.le_trans hab hbc) hc

theorem mlsp_run_chain (dgs : List (List Nat)) : ∀ m : MlspState,
    List.Chain (· ≤ ·) m.framenumber
      ((mlsp_run m dgs).2.map (fun fr => fr.framenumber)) := by
  induction dgs with
  | nil => intro m; simp [mlsp_run]
  | cons dg rest ih =>
    intro m
    rw [mlsp_run_cons]
    cases hs : (mlsp_receive_step m dg).2 with
    | none =>
      simp only [hs, Option.toList_none, List.nil_append]
      exact chain_le_of_le _ _ _ (mlsp_receive_step_fn_mono m dg) (ih _)
    | some fr =>
      simp only [hs, Option.toList_some, List.cons_append, List.nil_append,
        List.map_cons]
      refine List.Chain.cons ?_ ?_
      · rw [mlsp_receive_step_emit_fn m dg fr hs]
        exact mlsp_receive_step_fn_mono m dg
      · rw [mlsp_receive_step_emit_fn m dg fr hs]
        exact ih _

theorem mlsp_receive_cons_none (m m' : MlspState) (dg : List Nat)
    (rest : List (List Nat)) (h : mlsp_receive_step m dg = (m', none)) :
    mlsp_receive m (dg :: rest) = mlsp_receive m' rest := by
  simp [mlsp_receive, h]

theorem mlsp_run_cons_none (m m' : MlspState) (dg : List Nat)
    (rest : List (List Nat)) (h : mlsp_receive_step m dg = (m', none)) :
    mlsp_run m (dg :: rest) = mlsp_run m' rest := by
  rw [mlsp_run_cons, h]
  simp

/-! ## Additional list and arithmetic helpers -/

theorem lgetD_take {α : Type} (l : List α) (k n : Nat) (d : α) (h : n < k) :
    (l.take k).getD n d = l.getD n d := by
  simp [List.getD_eq_getElem?_getD, List.getElem?_take, h]

theorem ceil_div_eq (sz : Nat) :
    sz / PACKET_MAX_PAYLOAD + (if sz % PACKET_MAX_PAYLOAD ≠ 0 then 1 else 0)
      = (sz + (PACKET_MAX_PAYLOAD - 1)) / PACKET_MAX_PAYLOAD := by
  unfold PACKET_MAX_PAYLOAD
  split_ifs with h
  · omega
  · omega

theorem packets_value (sz : Nat) (h2 : sz ≤ PACKET_MAX_PAYLOAD * 65535) :
    (sz / PACKET_MAX_PAYLOAD + (if sz % PACKET_MAX_PAYLOAD ≠ 0 then 1 else 0)) % 65536
      = (sz + (PACKET_MAX_PAYLOAD - 1)) / PACKET_MAX_PAYLOAD := by
  rw [ceil_div_eq]
  apply Nat.mod_eq_of_lt
  unfold PACKET_MAX_PAYLOAD at *
  omega

theorem mlsp_run_all_rejected (dgs : List (List Nat)) : ∀ m : MlspState,
    (∀ dg ∈ dgs,
      mlsp_decode_header m (dg.take (PACKET_HEADER_SIZE + PACKET_MAX_PAYLOAD)) = none) →
    mlsp_run m dgs = (m, []) := by
  induction dgs with
  | nil => intro m _; rfl
  | cons dg rest ih =>
    intro m h
    rw [mlsp_run_cons_none m m dg rest
      (receive_step_of_decode_none m dg (h dg (List.mem_cons_self dg rest)))]
    exact ih m (fun d hd => h d (List.mem_cons_of_mem dg hd))

/-- Every datagram produced by `mlsp_send` carries the sender's configured
subframe count (as a u8) in header byte 2, and is at least 8 bytes long. -/
theorem mlsp_send_mem_shape (S : Nat) (F : SendFrame) (dg : List Nat)
    (hmem : dg ∈ mlsp_send S F) : dg.getD 2 0 = S % 256 ∧ PACKET_HEADER_SIZE ≤ dg.length := by
  unfold mlsp_send at hmem
  rw [List.mem_flatten] at hmem
  obtain ⟨l, hl, hdg⟩ := hmem
  rw [List.mem_map] at hl
  obtain ⟨i, hi, rfl⟩ := hl
  simp only [mlsp_send_subframe] at hdg
  rw [List.mem_map] at hdg
  obtain ⟨p, hp, rfl⟩ := hdg
  constructor
  · rfl
  · simp [PACKET_HEADER_SIZE]

/-! ## Claim C3 (corrected) -/

/-- **C3, counterexample.**  The claim says a subframe of size 0 is
transmitted as exactly one packet of zero payload length.  In the code,
`packets = 0/PACKET_MAX_PAYLOAD + (0 % PACKET_MAX_PAYLOAD != 0) = 0`, so the
send loop does not execute at all: zero datagrams are produced, not one. -/
theorem send_subframe_size_zero_cex :
    mlsp_send_subframe 1 5 0 [] 0 = [] ∧ (mlsp_send_subframe 1 5 0 [] 0).length ≠ 1 := by
  decide

/-- **C3, amended.**  When `mlsp_send_subframe` is given a subframe of size
0 it computes `packets = 0` and transmits no packet at all for that
subframe, so the subframe's existence never registers at the receiver. -/
theorem send_subframe_size_zero_sends_nothing (ms f sub : Nat) (data : List Nat) :
    mlsp_send_subframe ms f sub data 0 = [] := rfl

/-! ## Claim C8 (corrected) -/

/-- **C8, counterexample.**  The claim states that every subframe of size
≥ 1 yields exactly `⌈size / PACKET_MAX_PAYLOAD⌉` packets.  `packets` is a C
`uint16_t`: at `size = 65536 × 1400` the true packet count 65536 truncates
to 0, and the sender emits no packet at all. -/
theorem send_subframe_packets_overflow_cex :
    (mlsp_send_subframe 1 0 0 [] (65536 * 1400)).length = 0
    ∧ (65536 * 1400 + (PACKET_MAX_PAYLOAD - 1)) / PACKET_MAX_PAYLOAD = 65536
    ∧ (0 : Nat) ≠ 65536 := by
  decide

/-- **C8, amended.**  For every subframe of size `sz` with
`1 ≤ sz ≤ PACKET_MAX_PAYLOAD × 65535` (so that the `uint16_t` packet count
does not overflow), `mlsp_send_subframe` emits exactly
`⌈sz / PACKET_MAX_PAYLOAD⌉` packets; every non-terminal packet datagram is
header plus exactly `PACKET_MAX_PAYLOAD` payload bytes, and the terminal
packet carries `sz − (packets − 1) × PACKET_MAX_PAYLOAD` payload bytes
(hence a size of exactly `k × PACKET_MAX_PAYLOAD` gives `k` full packets,
and size 1 gives one packet of 1 payload byte). -/
theorem send_subframe_fragmentation (sz ms f sub : Nat) (data : List Nat)
    (h1 : 1 ≤ sz) (h2 : sz ≤ PACKET_MAX_PAYLOAD * 65535) :
    (mlsp_send_subframe ms f sub data sz).length
        = (sz + (PACKET_MAX_PAYLOAD - 1)) / PACKET_MAX_PAYLOAD
    ∧ (∀ p, p + 1 < (sz + (PACKET_MAX_PAYLOAD - 1)) / PACKET_MAX_PAYLOAD →
        ((mlsp_send_subframe ms f sub data sz).getD p []).length
          = PACKET_HEADER_SIZE + PACKET_MAX_PAYLOAD)
    ∧ ((mlsp_send_subframe ms f sub data sz).getD
          ((sz + (PACKET_MAX_PAYLOAD - 1)) / PACKET_MAX_PAYLOAD - 1) []).length
        = PACKET_HEADER_SIZE +
          (sz - ((sz + (PACKET_MAX_PAYLOAD - 1)) / PACKET_MAX_PAYLOAD - 1)
            * PACKET_MAX_PAYLOAD) := by
  have hP := packets_value sz h2
  have hPpos : 1 ≤ (sz + (PACKET_MAX_PAYLOAD - 1)) / PACKET_MAX_PAYLOAD := by
    unfold PACKET_MAX_PAYLOAD at *
    omega
  simp only [mlsp_send_subframe]
  rw [hP]
  refine ⟨by simp, ?_, ?_⟩
  · intro p hp
    rw [lgetD_range_map _ _ _ _ (by omega)]
    simp only [List.length_append, List.length_map, List.length_range,
      List.length_cons, List.length_nil]
    rw [if_pos (by omega)]
    unfold PACKET_HEADER_SIZE
    omega
  · rw [lgetD_range_map _ _ _ _ (by omega)]
    simp only [List.length_append, List.length_map, List.length_range,
      List.length_cons, List.length_nil]
    rw [if_neg (by omega)]
    unfold PACKET_HEADER_SIZE PACKET_MAX_PAYLOAD at *
    split_ifs with h
    · omega
    · omega

/-- **C8, witness** at size 2801 (= 2 × 1400 + 1): 3 packets, middle packet
full, terminal packet 1 payload byte. -/
theorem send_subframe_fragmentation_witness :
    (mlsp_send_subframe 1 9 0 (List.replicate 2801 7) 2801).length = 3
    ∧ ((mlsp_send_subframe 1 9 0 (List.replicate 2801 7) 2801).getD 1 []).length = 1408
    ∧ ((mlsp_send_subframe 1 9 0 (List.replicate 2801 7) 2801).getD 2 []).length = 9 := by
  have h := send_subframe_fragmentation 2801 1 9 0 (List.replicate 2801 7)
    (by decide) (by decide)
  exact ⟨h.1, h.2.1 1 (by decide), h.2.2⟩

/-! ## Claim C7 (confirmed) -/

/-- **C7.**  Header decoding fails (packet dropped) when the datagram is
shorter than 8 bytes, when the computed payload length exceeds
`PACKET_MAX_PAYLOAD`, when `subframe ≥ subframes`, when
`packet ≥ packets`, or when `subframes > MLSP_MAX_SUBFRAMES` (using that an
initialized endpoint has `subframes ≤ MLSP_MAX_SUBFRAMES`); and a decode
failure never surfaces: the receive loop drops the datagram, keeps its
state, and awaits the next one. -/
theorem decode_header_failure_conditions (m : MlspState) (dg : List Nat)
    (rest : List (List Nat)) (hm : m.subframes ≤ MLSP_MAX_SUBFRAMES) :
    (dg.length < PACKET_HEADER_SIZE → mlsp_decode_header m dg = none)
    ∧ (dg.length - PACKET_HEADER_SIZE > PACKET_MAX_PAYLOAD →
        mlsp_decode_header m dg = none)
    ∧ (hdr_subframe dg ≥ hdr_subframes dg → mlsp_decode_header m dg = none)
    ∧ (hdr_packet dg ≥ hdr_packets dg → mlsp_decode_header m dg = none)
    ∧ (hdr_subframes dg > MLSP_MAX_SUBFRAMES → mlsp_decode_header m dg = none)
    ∧ (mlsp_decode_header m (dg.take (PACKET_HEADER_SIZE + PACKET_MAX_PAYLOAD)) = none →
        mlsp_receive_step m dg = (m, none)
        ∧ mlsp_receive m (dg :: rest) = mlsp_receive m rest
        ∧ mlsp_run m (dg :: rest) = mlsp_run m rest) := by
  refine ⟨?_, ?_, ?_, ?_, ?_, ?_⟩
  · intro h
    unfold mlsp_decode_header
    rw [if_pos h]
  · intro h
    unfold mlsp_decode_header
    split_ifs with h1 h2
    · rfl
    · rfl
    all_goals exact absurd h h2
  · intro h
    unfold mlsp_decode_header
    split_ifs with h1 h2 h3
    any_goals rfl
    all_goals exact absurd h h3
  · intro h
    unfold mlsp_decode_header
    split_ifs with h1 h2 h3 h4
    any_goals rfl
    all_goals exact absurd h h4
  · intro h
    unfold mlsp_decode_header
    split_ifs with h1 h2 h3 h4 h5 h6
    any_goals rfl
    exact absurd (Or.inl (Nat.lt_of_le_of_lt hm h)) h6
  · intro h
    exact ⟨receive_step_of_decode_none m dg h,
      mlsp_receive_cons_none m m dg rest (receive_step_of_decode_none m dg h),
      mlsp_run_cons_none m m dg rest (receive_step_of_decode_none m dg h)⟩

/-- **C7, witness**: a 1-byte datagram and an all-zero 8-byte header
(`subframe = subframes = 0`) are both rejected, and the rejected 1-byte
datagram leaves the receive loop state unchanged. -/
theorem decode_header_failure_conditions_witness :
    mlsp_decode_header (mlsp_initial 1) [0] = none
    ∧ mlsp_decode_header (mlsp_initial 1) [0, 0, 0, 0, 0, 0, 0, 0] = none
    ∧ mlsp_receive_step (mlsp_initial 1) [0] = (mlsp_initial 1, none) := by
  have h1 := decode_header_failure_conditions (mlsp_initial 1) [0] [] (by decide)
  have h8 := decode_header_failure_conditions (mlsp_initial 1)
    [0, 0, 0, 0, 0, 0, 0, 0] [] (by decide)
  exact ⟨h1.1 (by decide), h8.2.2.1 (by decide), (h1.2.2.2.2.2 (by decide)).1⟩

/-! ## Claim C10 (confirmed) -/

/-- **C10.**  The receiver's header decode also rejects every packet whose
advertised total subframes exceed the endpoint's configured count, or whose
subframe index reaches it — even when within `MLSP_MAX_SUBFRAMES`; hence a
sender configured with more subframes than the receiver has every packet
silently discarded: processing its entire `mlsp_send` output emits no frame
and leaves the receiver state unchanged. -/
theorem decode_drops_subframes_beyond_configured (m : MlspState) (dg : List Nat)
    (S : Nat) (F : SendFrame) :
    (hdr_subframes dg > m.subframes → mlsp_decode_header m dg = none)
    ∧ (hdr_subframe dg ≥ m.subframes → mlsp_decode_header m dg = none)
    ∧ (S ≤ MLSP_MAX_SUBFRAMES → m.subframes < S →
        mlsp_run m (mlsp_send S F) = (m, [])) := by
  have ha : ∀ d : List Nat, hdr_subframes d > m.subframes → mlsp_decode_header m d = none := by
    intro d hgt
    unfold mlsp_decode_header
    split_ifs with h1 h2 h3 h4 h5 h6
    any_goals rfl
    exact absurd (Or.inl hgt) h6
  refine ⟨ha dg, ?_, ?_⟩
  · intro hge
    unfold mlsp_decode_header
    split_ifs with h1 h2 h3 h4 h5 h6
    any_goals rfl
    exact absurd (Or.inr hge) h6
  · intro hS hlt
    apply mlsp_run_all_rejected
    intro d hd
    apply ha
    have hb := mlsp_send_mem_shape S F d hd
    have hmod : S % 256 = S := Nat.mod_eq_of_lt (by
      unfold MLSP_MAX_SUBFRAMES at hS
      omega)
    rw [hdr_subframes, lgetD_take _ _ _ _ (by norm_num [PACKET_HEADER_SIZE, PACKET_MAX_PAYLOAD]),
      hb.1, hmod]
    exact hlt

/-- **C10, witness**: a sender configured with 2 subframes against a
receiver configured with 1 subframe — the receiver drops everything and
emits nothing; and a direct 2-subframe header is rejected by decode. -/
theorem decode_drops_subframes_beyond_configured_witness :
    mlsp_run (mlsp_initial 1)
      (mlsp_send 2 { framenumber := 1, data := [[1], [2]], size := [1, 1] })
      = (mlsp_initial 1, [])
    ∧ mlsp_decode_header (mlsp_initial 1) [1, 0, 2, 0, 1, 0, 0, 0] = none := by
  have h := decode_drops_subframes_beyond_configured (mlsp_initial 1)
    [1, 0, 2, 0, 1, 0, 0, 0] 2
    { framenumber := 1, data := [[1], [2]], size := [1, 1] }
  exact ⟨h.2.2 (by decide) (by decide), h.1 (by decide)⟩

/-! ## Claim C4 (corrected) -/

/-- Decode acceptance implies the packet's framenumber is at least the
endpoint's (line 348: strictly older framenumbers are rejected). -/
theorem decode_fn_ge (m : MlspState) (dg : List Nat) (udp : MlspPacket)
    (h : mlsp_decode_header m dg = some udp) :
    m.framenumber ≤ udp.framenumber :=
  (mlsp_decode_header_inv m dg udp h).2.2.2.2.2.2.2.2.2.2.2.2.1

/-- **C4, counterexample.**  The claim asserts the emitted framenumbers are
strictly increasing.  After frame 1 is emitted from a single-packet
subframe, two more packets for the same framenumber 1 advertising
`packets = 2` re-prepare the slot (the packet-count disagreement resets it)
and complete it again: `mlsp_receive` emits framenumber 1 twice. -/
theorem receive_monotone_cex :
    ((mlsp_run (mlsp_initial 1)
      [[1, 0, 1, 0, 1, 0, 0, 0, 65],
       [1, 0, 1, 0, 2, 0, 0, 0, 66],
       [1, 0, 1, 0, 2, 0, 1, 0, 67]]).2.map (fun fr => fr.framenumber)) = [1, 1]
    ∧ ¬ List.Chain' (· < ·) ([1, 1] : List Nat) := by
  constructor
  · decide
  · simp [List.chain'_cons]

/-- **C4, amended.**  For every datagram sequence delivered to one receiver
endpoint the framenumbers of the emitted frames form a *nondecreasing*
sequence (each at least the endpoint's starting framenumber), and after a
frame with framenumber `f` has been emitted every subsequently accepted
packet (one that decodes successfully, under plain unsigned comparison)
has framenumber ≥ f. -/
theorem receive_monotone (m : MlspState) (dgs dgs2 : List (List Nat))
    (dg : List Nat) (udp : MlspPacket) (fr : mlsp_frame)
    (hfr : fr ∈ (mlsp_run m dgs).2)
    (hdec : mlsp_decode_header (mlsp_run (mlsp_run m dgs).1 dgs2).1 dg = some udp) :
    List.Chain (· ≤ ·) m.framenumber
      ((mlsp_run m dgs).2.map (fun f => f.framenumber))
    ∧ fr.framenumber ≤ udp.framenumber := by
  refine ⟨mlsp_run_chain dgs m, ?_⟩
  have h1 := mlsp_run_emit_le_final dgs m fr hfr
  have h2 := mlsp_run_fn_mono dgs2 (mlsp_run m dgs).1
  have h3 := decode_fn_ge _ dg udp hdec
  omega

/-- **C4, witness**: after emitting frame 1, a decodable packet for frame 2
is accepted, and `1 ≤ 2`. -/
theorem receive_monotone_witness :
    List.Chain (· ≤ ·) (mlsp_initial 1).framenumber
      ((mlsp_run (mlsp_initial 1) [[1, 0, 1, 0, 1, 0, 0, 0, 65]]).2.map
        (fun f => f.framenumber))
    ∧ ((mlsp_run (mlsp_initial 1) [[1, 0, 1, 0, 1, 0, 0, 0, 65]]).2.headI).framenumber
        ≤ (2 : Nat) := by
  have h := receive_monotone (mlsp_initial 1) [[1, 0, 1, 0, 1, 0, 0, 0, 65]] []
    [2, 0, 1, 0, 1, 0, 0, 0]
    { framenumber := 2, subframes := 1, subframe := 0, packets := 1, packet := 0,
      data := [], size := 0 }
    ((mlsp_run (mlsp_initial 1) [[1, 0, 1, 0, 1, 0, 0, 0, 65]]).2.headI)
    (headI_mem _ (by decide)) (by decide)
  exact ⟨h.1, h.2⟩

/-! ## Claim C5 (confirmed) -/

/-- **C5.**  When a decodable packet carries a framenumber strictly greater
than the endpoint's, the endpoint advances via `mlsp_new_frame`: the new
framenumber is installed, the `received_subframes` bitmap is cleared, every
configured subframe slot has `actual_size`, `collected_packets` and
`packets` reset to 0 and its received-packet flags zeroed, while every
slot's payload buffer, `reserved_size`, allocation status and flags-array
capacity are retained; and the partially assembled earlier frame is never
emitted: every frame emitted from this datagram on has framenumber at least
the new one (strictly above the discarded frame's). -/
theorem frame_switch_discard (m : MlspState) (dg : List Nat) (udp : MlspPacket)
    (hlen : m.collected.length = MLSP_MAX_SUBFRAMES)
    (hdec : mlsp_decode_header m dg = some udp)
    (hlt : m.framenumber < udp.framenumber) :
    (mlsp_new_frame m udp.framenumber).framenumber = udp.framenumber
    ∧ (∀ j, j < MLSP_MAX_SUBFRAMES →
        (mlsp_new_frame m udp.framenumber).received_subframes.getD j 0 = 0)
    ∧ (∀ s, s < m.subframes → s < MLSP_MAX_SUBFRAMES →
        ((mlsp_new_frame m udp.framenumber).collected.getD s default).actual_size = 0
        ∧ ((mlsp_new_frame m udp.framenumber).collected.getD s default).collected_packets = 0
        ∧ ((mlsp_new_frame m udp.framenumber).collected.getD s default).packets = 0
        ∧ ((m.collected.getD s default).flagsAlloc = true →
            ∀ q, q < (m.collected.getD s default).received_packets_size →
              ((mlsp_new_frame m udp.framenumber).collected.getD s default).received_packets q = 0))
    ∧ (∀ s, s < MLSP_MAX_SUBFRAMES →
        ((mlsp_new_frame m udp.framenumber).collected.getD s default).data
            = (m.collected.getD s default).data
        ∧ ((mlsp_new_frame m udp.framenumber).collected.getD s default).reserved_size
            = (m.collected.getD s default).reserved_size
        ∧ ((mlsp_new_frame m udp.framenumber).collected.getD s default).dataAlloc
            = (m.collected.getD s default).dataAlloc
        ∧ ((mlsp_new_frame m udp.framenumber).collected.getD s default).received_packets_size
            = (m.collected.getD s default).received_packets_size)
    ∧ (∀ (rest : List (List Nat)) (fr : mlsp_frame),
        fr ∈ (mlsp_run m (dg :: rest)).2 → udp.framenumber ≤ fr.framenumber) := by
  have hslot : ∀ s, s < MLSP_MAX_SUBFRAMES →
      (mlsp_new_frame m udp.framenumber).collected.getD s default
        = if s < m.subframes then resetSlot (m.collected.getD s default)
          else m.collected.getD s default := by
    intro s hs
    show (mapWithIndex _ 0 m.collected).getD s default = _
    rw [mapWithIndex_getD _ m.collected 0 s default (by rw [hlen]; exact hs)]
    simp
  refine ⟨rfl, ?_, ?_, ?_, ?_⟩
  · intro j hj
    exact lgetD_replicate _ j 0 0 hj
  · intro s h1 h2
    rw [hslot s h2, if_pos h1]
    refine ⟨rfl, rfl, rfl, ?_⟩
    intro hf q hq
    simp only [resetSlot, hf]
    exact if_pos hq
  · intro s hs
    rw [hslot s hs]
    split_ifs
    · exact ⟨rfl, rfl, rfl, rfl⟩
    · exact ⟨rfl, rfl, rfl, rfl⟩
  · intro rest fr hfr
    have htake := decode_some_take m dg udp hdec
    have hstep : mlsp_receive_step m dg = mlsp_deposit (mlsp_prepare m udp) udp :=
      receive_step_of_decode_some m dg udp (by rw [htake]; exact hdec)
    have hfn : (mlsp_receive_step m dg).1.framenumber = udp.framenumber := by
      rw [hstep, mlsp_deposit_framenumber, mlsp_prepare_framenumber, if_pos hlt]
    rw [mlsp_run_cons] at hfr
    rcases List.mem_append.mp hfr with hl | hr
    · have he : (mlsp_receive_step m dg).2 = some fr := by
        cases hs2 : (mlsp_receive_step m dg).2 with
        | none => rw [hs2] at hl; exact absurd hl (by simp)
        | some fr' => rw [hs2] at hl; simp at hl; rw [hl]
      rw [mlsp_receive_step_emit_fn m dg fr he, hfn]
    · have hge := mlsp_run_emit_ge rest (mlsp_receive_step m dg).1 fr hr
      rw [hfn] at hge
      exact hge

/-- **C5, witness**: fresh two-subframe receiver, first packet of frame 1
switches from frame 0. -/
theorem frame_switch_discard_witness :
    (mlsp_new_frame (mlsp_initial 2) 1).framenumber = 1
    ∧ (mlsp_new_frame (mlsp_initial 2) 1).received_subframes.getD 0 0 = 0
    ∧ ((mlsp_new_frame (mlsp_initial 2) 1).collected.getD 0 default).packets = 0
    ∧ ((mlsp_new_frame (mlsp_initial 2) 1).collected.getD 0 default).reserved_size
        = ((mlsp_initial 2).collected.getD 0 default).reserved_size := by
  have h := frame_switch_discard (mlsp_initial 2) [1, 0, 2, 0, 1, 0, 0, 0, 9]
    { framenumber := 1, subframes := 2, subframe := 0, packets := 1, packet := 0,
      data := [9], size := 1 }
    (by decide) (by decide) (by decide)
  exact ⟨h.1, h.2.1 0 (by decide), (h.2.2.1 0 (by decide) (by decide)).2.2.1,
    (h.2.2.2.1 0 (by decide)).2.1⟩

/-! ## Claim C6 (confirmed) -/

/-- **C6.**  Deposit semantics at the receiver (lines 281-291): a packet
whose received flag is already set is dropped with no state change at all;
otherwise the flag (and only that flag) is set, `collected_packets` is
incremented by exactly 1, `actual_size` grows by exactly the payload
length, and the payload bytes are copied to offset
`packet × PACKET_MAX_PAYLOAD`, leaving every byte outside that window
untouched — so a packet delivered twice is never double-counted. -/
theorem deposit_duplicate_suppression (m : MlspState) (udp : MlspPacket)
    (hsf : udp.subframe < MLSP_MAX_SUBFRAMES)
    (hlen : m.collected.length = MLSP_MAX_SUBFRAMES) :
    ((m.collected.getD udp.subframe default).received_packets udp.packet ≠ 0 →
      mlsp_deposit m udp = (m, none))
    ∧ ((m.collected.getD udp.subframe default).received_packets udp.packet = 0 →
        ((mlsp_deposit m udp).1.collected.getD udp.subframe default).received_packets udp.packet = 1
        ∧ (∀ q, q ≠ udp.packet →
            ((mlsp_deposit m udp).1.collected.getD udp.subframe default).received_packets q
              = (m.collected.getD udp.subframe default).received_packets q)
        ∧ ((mlsp_deposit m udp).1.collected.getD udp.subframe default).collected_packets
            = (m.collected.getD udp.subframe default).collected_packets + 1
        ∧ ((mlsp_deposit m udp).1.collected.getD udp.subframe default).actual_size
            = (m.collected.getD udp.subframe default).actual_size + udp.size
        ∧ (∀ j, j < udp.size →
            ((mlsp_deposit m udp).1.collected.getD udp.subframe default).data
                (udp.packet * PACKET_MAX_PAYLOAD + j)
              = udp.data.getD j 0)
        ∧ (∀ idx, idx < udp.packet * PACKET_MAX_PAYLOAD
              ∨ udp.packet * PACKET_MAX_PAYLOAD + udp.size ≤ idx →
            ((mlsp_deposit m udp).1.collected.getD udp.subframe default).data idx
              = (m.collected.getD udp.subframe default).data idx)) := by
  constructor
  · intro hdup
    simp only [mlsp_deposit]
    rw [if_pos hdup]
  · intro h0
    have hgetD : (mlsp_deposit m udp).1.collected.getD udp.subframe default
        = depositedSlot (m.collected.getD udp.subframe default) udp := by
      have hset : (mlsp_deposit m udp).1.collected = m.collected.set udp.subframe
          (depositedSlot (m.collected.getD udp.subframe default) udp) := by
        simp only [mlsp_deposit]
        rw [if_neg (by omega)]
        split_ifs <;> rfl
      rw [hset]
      exact lgetD_set_eq m.collected udp.subframe _ default (by omega)
    refine ⟨?_, ?_, ?_, ?_, ?_, ?_⟩
    · rw [hgetD]
      simp [depositedSlot]
    · intro q hq
      rw [hgetD]
      simp [depositedSlot, hq]
    · rw [hgetD]
      rfl
    · rw [hgetD]
      rfl
    · intro j hj
      rw [hgetD]
      have hc : udp.packet * PACKET_MAX_PAYLOAD ≤ udp.packet * PACKET_MAX_PAYLOAD + j
          ∧ udp.packet * PACKET_MAX_PAYLOAD + j
              < udp.packet * PACKET_MAX_PAYLOAD + udp.size := by omega
      have harg : udp.packet * PACKET_MAX_PAYLOAD + j - udp.packet * PACKET_MAX_PAYLOAD = j := by
        omega
      simp [depositedSlot, hc, harg]
    · intro idx hidx
      rw [hgetD]
      have hc : ¬ (udp.packet * PACKET_MAX_PAYLOAD ≤ idx ∧
          idx < udp.packet * PACKET_MAX_PAYLOAD + udp.size) := by omega
      simp [depositedSlot, hc]

/-! ## Claim C2 (corrected) -/

/-- Field values of the frame built by `mlsp_decode_payload`. -/
theorem decode_payload_fields (m2 : MlspState) (udp : MlspPacket) (old : mlsp_frame)
    (hadv : udp.subframes ≤ m2.subframes) (hm3 : m2.subframes ≤ MLSP_MAX_SUBFRAMES) :
    (mlsp_decode_payload m2 udp old).framenumber = m2.framenumber
    ∧ (∀ i, i < udp.subframes →
        (mlsp_decode_payload m2 udp old).size.getD i 0
            = (m2.collected.getD i default).actual_size
        ∧ (mlsp_decode_payload m2 udp old).data.getD i none
            = some (m2.collected.getD i default).data)
    ∧ (∀ i, udp.subframes ≤ i → i < m2.subframes →
        (mlsp_decode_payload m2 udp old).size.getD i 0 = 0
        ∧ (mlsp_decode_payload m2 udp old).data.getD i none = none) := by
  refine ⟨rfl, ?_, ?_⟩
  · intro i hi
    constructor
    · simp only [mlsp_decode_payload]
      rw [lgetD_range_map _ _ _ _ (by omega), if_pos (by omega), if_pos hi]
    · simp only [mlsp_decode_payload]
      rw [lgetD_range_map _ _ _ _ (by omega), if_pos (by omega), if_pos hi]
  · intro i h1 h2
    constructor
    · simp only [mlsp_decode_payload]
      rw [lgetD_range_map _ _ _ _ (by omega), if_pos h2, if_neg (by omega)]
    · simp only [mlsp_decode_payload]
      rw [lgetD_range_map _ _ _ _ (by omega), if_pos h2, if_neg (by omega)]

/-- An emitted frame is exactly `mlsp_decode_payload` applied to the state
holding the freshly deposited slot and the updated bitmap. -/
theorem mlsp_deposit_emit_eq (m : MlspState) (udp : MlspPacket) (fr : mlsp_frame)
    (h : (mlsp_deposit m udp).2 = some fr) :
    fr = mlsp_decode_payload
      { m with
        collected := m.collected.set udp.subframe
          (depositedSlot (m.collected.getD udp.subframe default) udp)
        received_subframes := m.received_subframes.set udp.subframe 1 }
      udp m.frame := by
  simp only [mlsp_deposit] at h
  split_ifs at h with h1 h2 h3
  all_goals simp only [prod_snd_pair] at h
  all_goals first
    | (injection h with h; exact h.symm)
    | exact absurd h (by simp)

/-- **C2, counterexample.**  The claim ties emission to the popcount of the
whole `received_subframes` bitmap.  The code counts only the first
`udp.subframes` entries (lines 297-302).  With a receiver configured for 3
subframes: a packet of frame 1 advertising `subframes = 3` completes
subframe 2 (bit 2 set, no emission), then a packet of the same frame
advertising `subframes = 1` completes subframe 0 — the code counts only
entry 0 and emits, although the bitmap `[1, 0, 1]` has 2 set bits while the
just-received header advertised 1. -/
theorem frame_completion_emission_cex :
    (mlsp_receive (mlsp_initial 3)
      [[1, 0, 3, 2, 1, 0, 0, 0, 5], [1, 0, 1, 0, 1, 0, 0, 0, 9]]).2.isSome = true
    ∧ (mlsp_receive (mlsp_initial 3)
        [[1, 0, 3, 2, 1, 0, 0, 0, 5],
         [1, 0, 1, 0, 1, 0, 0, 0, 9]]).1.received_subframes = [1, 0, 1]
    ∧ ([1, 0, 1] : List Nat).sum = 2
    ∧ hdr_subframes [1, 0, 1, 0, 1, 0, 0, 0, 9] = 1 := by
  decide

/-- **C2, amended.**  `mlsp_deposit` (the body of `mlsp_receive` past
header decode and preparation) returns a frame exactly when the packet is
not a duplicate, the deposited packet completes its subframe
(`collected_packets + 1 = packets`), and the count of set bits among the
first `subframes`-advertised entries of the updated `received_subframes`
equals the advertised value; the emitted frame carries the endpoint's
current framenumber, for `i < subframes` has `data[i]` pointing at
`collected[i]`'s buffer and `size[i] = collected[i].actual_size`, and for
each configured index `i ≥ subframes` has `data[i] = NULL`, `size[i] = 0`;
otherwise the loop continues awaiting the next datagram. -/
theorem frame_completion_emission (m : MlspState) (udp : MlspPacket)
    (hsf : udp.subframe < m.subframes) (hm3 : m.subframes ≤ MLSP_MAX_SUBFRAMES)
    (hadv : udp.subframes ≤ m.subframes)
    (hlen : m.collected.length = MLSP_MAX_SUBFRAMES) :
    ((mlsp_deposit m udp).2.isSome = true ↔
      ((m.collected.getD udp.subframe default).received_packets udp.packet = 0
       ∧ (m.collected.getD udp.subframe default).collected_packets + 1 = udp.packets
       ∧ sumFirst udp.subframes (m.received_subframes.set udp.subframe 1)
           = udp.subframes))
    ∧ (∀ fr, (mlsp_deposit m udp).2 = some fr →
        fr.framenumber = m.framenumber
        ∧ (∀ i, i < udp.subframes →
            fr.size.getD i 0 = ((mlsp_deposit m udp).1.collected.getD i default).actual_size
            ∧ fr.data.getD i none
                = some ((mlsp_deposit m udp).1.collected.getD i default).data)
        ∧ (∀ i, udp.subframes ≤ i → i < m.subframes →
            fr.size.getD i 0 = 0 ∧ fr.data.getD i none = none)) := by
  have hIff : (mlsp_deposit m udp).2.isSome = true ↔
      ((m.collected.getD udp.subframe default).received_packets udp.packet = 0
       ∧ (m.collected.getD udp.subframe default).collected_packets + 1 = udp.packets
       ∧ sumFirst udp.subframes (m.received_subframes.set udp.subframe 1)
           = udp.subframes) := by
    by_cases hdup : (m.collected.getD udp.subframe default).received_packets udp.packet ≠ 0
    · have hres : mlsp_deposit m udp = (m, none) := by
        simp only [mlsp_deposit]
        rw [if_pos hdup]
      refine iff_of_false ?_ ?_
      · rw [hres]
        simp
      · rintro ⟨h0, -, -⟩
        exact hdup h0
    · have h0 : (m.collected.getD udp.subframe default).received_packets udp.packet = 0 := by
        omega
      by_cases hcomp : (m.collected.getD udp.subframe default).collected_packets + 1
          = udp.packets
      · by_cases hcount : sumFirst udp.subframes
            (m.received_subframes.set udp.subframe 1) = udp.subframes
        · refine iff_of_true ?_ ⟨h0, hcomp, hcount⟩
          simp only [mlsp_deposit]
          rw [if_neg hdup]
          split_ifs with hc hn
          all_goals first
            | rfl
            | exact absurd hcount hn
            | exact absurd hcomp hc
        · refine iff_of_false ?_ (fun hb => hcount hb.2.2)
          simp only [mlsp_deposit]
          rw [if_neg hdup]
          split_ifs with hc hn
          all_goals first
            | exact absurd (by omega : sumFirst udp.subframes
                (m.received_subframes.set udp.subframe 1) = udp.subframes) hcount
            | simp
      · refine iff_of_false ?_ (fun hb => hcomp hb.2.1)
        simp only [mlsp_deposit]
        rw [if_neg hdup]
        split_ifs with hc hn
        all_goals first
          | exact absurd (show (m.collected.getD udp.subframe default).collected_packets + 1
              = udp.packets from hc) hcomp
          | simp
  refine ⟨hIff, ?_⟩
  intro fr hfr
  obtain ⟨h0, hcomp, hcount⟩ := hIff.mp (by rw [hfr]; rfl)
  have hset : (mlsp_deposit m udp).1.collected = m.collected.set udp.subframe
      (depositedSlot (m.collected.getD udp.subframe default) udp) := by
    simp only [mlsp_deposit]
    rw [if_neg (by omega)]
    split_ifs <;> rfl
  have hemit := mlsp_deposit_emit_eq m udp fr hfr
  subst hemit
  have hf := decode_payload_fields
    { m with
      collected := m.collected.set udp.subframe
        (depositedSlot (m.collected.getD udp.subframe default) udp)
      received_subframes := m.received_subframes.set udp.subframe 1 }
    udp m.frame hadv hm3
  refine ⟨hf.1, ?_, ?_⟩
  · intro i hi
    rw [hset]
    exact hf.2.1 i hi
  · intro i h1 h2
    exact hf.2.2 i h1 h2

/-- **C2, witness**: a prepared single-subframe endpoint at frame 5; the
lone packet completes the subframe and a frame is emitted. -/
theorem frame_completion_emission_witness :
    (mlsp_deposit
      { subframes := 1
        framenumber := 5
        collected := [⟨true, fun _ => 0, 0, 1400, 1, 0, true, fun _ => 0, 1⟩,
          default, default]
        received_subframes := [0, 0, 0]
        frame := default }
      { framenumber := 5, subframes := 1, subframe := 0, packets := 1, packet := 0,
        data := [9], size := 1 }).2.isSome = true := by
  have h := frame_completion_emission
    { subframes := 1
      framenumber := 5
      collected := [⟨true, fun _ => 0, 0, 1400, 1, 0, true, fun _ => 0, 1⟩,
        default, default]
      received_subframes := [0, 0, 0]
      frame := default }
    { framenumber := 5, subframes := 1, subframe := 0, packets := 1, packet := 0,
      data := [9], size := 1 }
    (by decide) (by decide) (by decide) (by decide)
  exact h.1.mpr ⟨rfl, rfl, rfl⟩

/-! ## Claim C9 (confirmed) -/

theorem decode_size_le (m : MlspState) (dg : List Nat) (udp : MlspPacket)
    (h : mlsp_decode_header m dg = some udp) : udp.size ≤ PACKET_MAX_PAYLOAD :=
  (mlsp_decode_header_inv m dg udp h).2.2.2.2.2.2.2.2.2.1

theorem decode_packet_lt (m : MlspState) (dg : List Nat) (udp : MlspPacket)
    (h : mlsp_decode_header m dg = some udp) : udp.packet < udp.packets :=
  (mlsp_decode_header_inv m dg udp h).2.2.2.2.2.2.2.2.2.2.2.1

theorem decode_subframe_lt (m : MlspState) (dg : List Nat) (udp : MlspPacket)
    (h : mlsp_decode_header m dg = some udp) : udp.subframe < m.subframes :=
  (mlsp_decode_header_inv m dg udp h).2.2.2.2.2.2.2.2.2.2.2.2.2.2

theorem mlsp_new_subframe_packets (c : CollectedFrame) (udp : MlspPacket) :
    (mlsp_new_subframe c udp).packets = udp.packets := by
  simp only [mlsp_new_subframe]
  split_ifs <;> rfl

theorem mlsp_new_subframe_reserved (c : CollectedFrame) (udp : MlspPacket) :
    udp.packets * PACKET_MAX_PAYLOAD ≤ (mlsp_new_subframe c udp).reserved_size := by
  simp only [mlsp_new_subframe]
  split_ifs with ha hb
  · exact Nat.le_refl _
  · exact Nat.le_refl _
  · exact Nat.le_of_not_lt ha
  · exact Nat.le_of_not_lt ha

theorem new_frame_length (m : MlspState) (f : Nat) :
    (mlsp_new_frame m f).collected.length = m.collected.length :=
  mapWithIndex_length _ 0 m.collected

theorem new_frame_slot (m : MlspState) (f s : Nat)
    (hlen : m.collected.length = MLSP_MAX_SUBFRAMES) (hs : s < MLSP_MAX_SUBFRAMES) :
    (mlsp_new_frame m f).collected.getD s default
      = if s < m.subframes then resetSlot (m.collected.getD s default)
        else m.collected.getD s default := by
  show (mapWithIndex _ 0 m.collected).getD s default = _
  rw [mapWithIndex_getD _ m.collected 0 s default (by rw [hlen]; exact hs)]
  simp

theorem slotInvariant_new_frame (m : MlspState) (f : Nat) (hinv : slotInvariant m)
    (hlen : m.collected.length = MLSP_MAX_SUBFRAMES) :
    slotInvariant (mlsp_new_frame m f) := by
  intro s hs
  rw [new_frame_slot m f s hlen hs]
  split_ifs
  · simp [resetSlot]
  · exact hinv s hs

theorem slotInvariant_of_set (l : List CollectedFrame) (k : Nat) (c : CollectedFrame)
    (hl : ∀ s, s < MLSP_MAX_SUBFRAMES →
      (l.getD s default).packets * PACKET_MAX_PAYLOAD ≤ (l.getD s default).reserved_size)
    (hc : c.packets * PACKET_MAX_PAYLOAD ≤ c.reserved_size)
    (hk : k < l.length) :
    ∀ s, s < MLSP_MAX_SUBFRAMES →
      ((l.set k c).getD s default).packets * PACKET_MAX_PAYLOAD
        ≤ ((l.set k c).getD s default).reserved_size := by
  intro s hs
  by_cases hse : s = k
  · subst hse
    rw [lgetD_set_eq _ _ _ _ hk]
    exact hc
  · rw [lgetD_set_ne _ _ _ _ _ hse]
    exact hl s hs

theorem slotInvariant_deposit (m : MlspState) (udp : MlspPacket)
    (hinv : slotInvariant m) (hlen : m.collected.length = MLSP_MAX_SUBFRAMES)
    (hsf : udp.subframe < MLSP_MAX_SUBFRAMES) :
    slotInvariant (mlsp_deposit m udp).1 := by
  by_cases hdup : (m.collected.getD udp.subframe default).received_packets udp.packet ≠ 0
  · have hres : mlsp_deposit m udp = (m, none) := by
      simp only [mlsp_deposit]
      rw [if_pos hdup]
    rw [hres]
    exact hinv
  · have hset : (mlsp_deposit m udp).1.collected = m.collected.set udp.subframe
        (depositedSlot (m.collected.getD udp.subframe default) udp) := by
      simp only [mlsp_deposit]
      rw [if_neg (by omega)]
      split_ifs <;> rfl
    intro s hs
    rw [hset]
    exact slotInvariant_of_set m.collected udp.subframe
      (depositedSlot (m.collected.getD udp.subframe default) udp) hinv
      (show (depositedSlot (m.collected.getD udp.subframe default) udp).packets *
            PACKET_MAX_PAYLOAD
          ≤ (depositedSlot (m.collected.getD udp.subframe default) udp).reserved_size
        from hinv udp.subframe hsf) (by omega) s hs

theorem mlsp_prepare_facts (m : MlspState) (udp : MlspPacket)
    (hinv : slotInvariant m) (hlen : m.collected.length = MLSP_MAX_SUBFRAMES)
    (hsf : udp.subframe < MLSP_MAX_SUBFRAMES) :
    slotInvariant (mlsp_prepare m udp)
    ∧ (mlsp_prepare m udp).collected.length = MLSP_MAX_SUBFRAMES
    ∧ ((mlsp_prepare m udp).collected.getD udp.subframe default).packets = udp.packets
    ∧ udp.packets * PACKET_MAX_PAYLOAD
        ≤ ((mlsp_prepare m udp).collected.getD udp.subframe default).reserved_size := by
  simp only [mlsp_prepare]
  generalize hm1 : (if m.framenumber < udp.framenumber
    then mlsp_new_frame m udp.framenumber else m) = m1
  have hm1inv : slotInvariant m1 := by
    rw [← hm1]
    split_ifs
    · exact slotInvariant_new_frame m udp.framenumber hinv hlen
    · exact hinv
  have hm1len : m1.collected.length = MLSP_MAX_SUBFRAMES := by
    rw [← hm1]
    split_ifs
    · rw [new_frame_length]
      exact hlen
    · exact hlen
  have hkin : udp.subframe < m1.collected.length := by omega
  split_ifs with hc
  · refine ⟨?_, ?_, ?_, ?_⟩
    · exact fun s hs => slotInvariant_of_set m1.collected udp.subframe _ hm1inv
        (by
          rw [mlsp_new_subframe_packets]
          exact mlsp_new_subframe_reserved _ udp) hkin s hs
    · show (m1.collected.set udp.subframe _).length = _
      rw [List.length_set]
      exact hm1len
    · show ((m1.collected.set udp.subframe
          (mlsp_new_subframe (m1.collected.getD udp.subframe default) udp)).getD
            udp.subframe default).packets = udp.packets
      rw [lgetD_set_eq _ _ _ _ hkin]
      exact mlsp_new_subframe_packets _ udp
    · show udp.packets * PACKET_MAX_PAYLOAD ≤
        ((m1.collected.set udp.subframe
          (mlsp_new_subframe (m1.collected.getD udp.subframe default) udp)).getD
            udp.subframe default).reserved_size
      rw [lgetD_set_eq _ _ _ _ hkin]
      exact mlsp_new_subframe_reserved _ udp
  · push_neg at hc
    refine ⟨hm1inv, hm1len, hc.2, ?_⟩
    have hb := hm1inv udp.subframe hsf
    rw [hc.2] at hb
    exact hb

/-- **C9.**  Implicit deposit bounds safety: whenever a packet reaches the
payload copy of `mlsp_receive` (it decoded successfully, so
`packet < packets` and `size ≤ PACKET_MAX_PAYLOAD`), the copy window
`packet × PACKET_MAX_PAYLOAD + size` fits inside the prepared slot's
`reserved_size` — the decode checks together with subframe preparation
(which guarantees `reserved_size ≥ packets × PACKET_MAX_PAYLOAD` exactly
when the slot's recorded `packets` agrees with the packet's) keep every
copy inside the allocated buffer; the guarantee `packets × PACKET_MAX_PAYLOAD
≤ reserved_size` holds of the freshly initialized endpoint and is preserved
by every receive step. -/
theorem deposit_bounds_safety (m : MlspState) (dg : List Nat) (udp : MlspPacket)
    (n : Nat) (hinv : slotInvariant m) (hm3 : m.subframes ≤ MLSP_MAX_SUBFRAMES)
    (hlen : m.collected.length = MLSP_MAX_SUBFRAMES)
    (hdec : mlsp_decode_header m
      (dg.take (PACKET_HEADER_SIZE + PACKET_MAX_PAYLOAD)) = some udp) :
    udp.packet * PACKET_MAX_PAYLOAD + udp.size
        ≤ ((mlsp_prepare m udp).collected.getD udp.subframe default).reserved_size
    ∧ slotInvariant (mlsp_receive_step m dg).1
    ∧ slotInvariant (mlsp_initial n) := by
  have hsf : udp.subframe < MLSP_MAX_SUBFRAMES :=
    Nat.lt_of_lt_of_le (decode_subframe_lt _ _ udp hdec) hm3
  have hpf := mlsp_prepare_facts m udp hinv hlen hsf
  have hpk := decode_packet_lt _ _ udp hdec
  have hsz := decode_size_le _ _ udp hdec
  refine ⟨?_, ?_, ?_⟩
  · have hb := hpf.2.2.2
    unfold PACKET_MAX_PAYLOAD at hb hsz ⊢
    omega
  · rw [receive_step_of_decode_some m dg udp hdec]
    exact slotInvariant_deposit _ udp hpf.1 hpf.2.1 hsf
  · intro s hs
    rw [show (mlsp_initial n).collected = List.replicate MLSP_MAX_SUBFRAMES default
      from rfl, lgetD_replicate _ s default default hs]
    decide

/-- **C9, witness**: first packet of a 1-packet subframe at a fresh
endpoint fits its freshly reserved buffer. -/
theorem deposit_bounds_safety_witness :
    (0 : Nat) * PACKET_MAX_PAYLOAD + 1
      ≤ ((mlsp_prepare (mlsp_initial 1)
          { framenumber := 1, subframes := 1, subframe := 0, packets := 1, packet := 0,
            data := [9], size := 1 }).collected.getD 0 default).reserved_size := by
  have h := deposit_bounds_safety (mlsp_initial 1) [1, 0, 1, 0, 1, 0, 0, 0, 9]
    { framenumber := 1, subframes := 1, subframe := 0, packets := 1, packet := 0,
      data := [9], size := 1 } 1
    (by
      intro s hs
      rw [show (mlsp_initial 1).collected = List.replicate MLSP_MAX_SUBFRAMES default
        from rfl, lgetD_replicate _ s default default hs]
      decide)
    (by decide) (by decide) (by decide)
  exact h.1

/-! ## Claim C1: sender-side characterization -/

theorem send_subframe_as_map (ms f sub : Nat) (data : List Nat) (sz : Nat)
    (h2 : sz ≤ PACKET_MAX_PAYLOAD * 65535) :
    mlsp_send_subframe ms f sub data sz
      = (List.range (ceilPackets sz)).map
          (subframe_dg ms f sub data sz (ceilPackets sz)) := by
  rw [show mlsp_send_subframe ms f sub data sz
      = (List.range ((sz / PACKET_MAX_PAYLOAD +
          (if sz % PACKET_MAX_PAYLOAD ≠ 0 then 1 else 0)) % 65536)).map
        (subframe_dg ms f sub data sz ((sz / PACKET_MAX_PAYLOAD +
          (if sz % PACKET_MAX_PAYLOAD ≠ 0 then 1 else 0)) % 65536)) from rfl,
    packets_value sz h2]
  rfl

theorem ceilPackets_pos (sz : Nat) (h : 1 ≤ sz) : 1 ≤ ceilPackets sz := by
  unfold ceilPackets PACKET_MAX_PAYLOAD
  omega

theorem ceilPackets_le (sz : Nat) (h : sz ≤ PACKET_MAX_PAYLOAD * 65535) :
    ceilPackets sz ≤ 65535 := by
  unfold ceilPackets PACKET_MAX_PAYLOAD at *
  omega

theorem ceilPackets_bounds (sz : Nat) (h : 1 ≤ sz) :
    (ceilPackets sz - 1) * PACKET_MAX_PAYLOAD < sz
    ∧ sz ≤ ceilPackets sz * PACKET_MAX_PAYLOAD := by
  unfold ceilPackets PACKET_MAX_PAYLOAD at *
  omega

/-- The payload size of packet `p` of a subframe of `sz ≥ 1` bytes:
`PACKET_MAX_PAYLOAD` for non-terminal packets, the remainder for the
terminal one. -/
theorem subframe_dg_payload_size (sz p : Nat) (h1 : 1 ≤ sz) :
    (if p < ceilPackets sz - 1 then PACKET_MAX_PAYLOAD
      else if sz % PACKET_MAX_PAYLOAD ≠ 0 then sz % PACKET_MAX_PAYLOAD
      else PACKET_MAX_PAYLOAD)
    = (if p + 1 < ceilPackets sz then PACKET_MAX_PAYLOAD
        else sz - (ceilPackets sz - 1) * PACKET_MAX_PAYLOAD) := by
  unfold ceilPackets PACKET_MAX_PAYLOAD
  split_ifs <;> omega

/-- Decoding a sender-built datagram at a matching receiver: all header
fields round-trip and every check passes. -/
theorem decode_subframe_dg (m : MlspState) (n f i sz P p : Nat) (dat : List Nat)
    (hmn : m.subframes = n) (hmf : m.framenumber ≤ f)
    (hn3 : n ≤ MLSP_MAX_SUBFRAMES) (hf : f < 65536)
    (hi : i < n) (hP2 : P ≤ 65535) (hp : p < P) :
    mlsp_decode_header m ((subframe_dg n f i dat sz P p).take
        (PACKET_HEADER_SIZE + PACKET_MAX_PAYLOAD))
      = some
        { framenumber := f
          subframes := n
          subframe := i
          packets := P
          packet := p
          data := (List.range (if p < P - 1 then PACKET_MAX_PAYLOAD
              else if sz % PACKET_MAX_PAYLOAD ≠ 0 then sz % PACKET_MAX_PAYLOAD
              else PACKET_MAX_PAYLOAD)).map
            (fun j => dat.getD (p * PACKET_MAX_PAYLOAD + j) 0)
          size := if p < P - 1 then PACKET_MAX_PAYLOAD
              else if sz % PACKET_MAX_PAYLOAD ≠ 0 then sz % PACKET_MAX_PAYLOAD
              else PACKET_MAX_PAYLOAD } := by
  have hszp : (if p < P - 1 then PACKET_MAX_PAYLOAD
      else if sz % PACKET_MAX_PAYLOAD ≠ 0 then sz % PACKET_MAX_PAYLOAD
      else PACKET_MAX_PAYLOAD) ≤ PACKET_MAX_PAYLOAD := by
    unfold PACKET_MAX_PAYLOAD
    split_ifs <;> omega
  have hlendg : (subframe_dg n f i dat sz P p).length
      = PACKET_HEADER_SIZE + (if p < P - 1 then PACKET_MAX_PAYLOAD
          else if sz % PACKET_MAX_PAYLOAD ≠ 0 then sz % PACKET_MAX_PAYLOAD
          else PACKET_MAX_PAYLOAD) := by
    simp [subframe_dg, PACKET_HEADER_SIZE]
    omega
  have htake : (subframe_dg n f i dat sz P p).take
      (PACKET_HEADER_SIZE + PACKET_MAX_PAYLOAD) = subframe_dg n f i dat sz P p :=
    List.take_of_length_le (by
      rw [hlendg]
      unfold PACKET_HEADER_SIZE PACKET_MAX_PAYLOAD at *
      omega)
  rw [htake]
  have hF : hdr_framenumber (subframe_dg n f i dat sz P p) = f := by
    show f % 256 + 256 * (f / 256 % 256) = f
    exact u16_roundtrip f hf
  have hS : hdr_subframes (subframe_dg n f i dat sz P p) = n := by
    show n % 256 = n
    unfold MLSP_MAX_SUBFRAMES at hn3
    exact Nat.mod_eq_of_lt (by omega)
  have hsub : hdr_subframe (subframe_dg n f i dat sz P p) = i := by
    show i % 256 = i
    unfold MLSP_MAX_SUBFRAMES at hn3
    exact Nat.mod_eq_of_lt (by omega)
  have hPk : hdr_packets (subframe_dg n f i dat sz P p) = P := by
    show P % 256 + 256 * (P / 256 % 256) = P
    exact u16_roundtrip P (by omega)
  have hpp : hdr_packet (subframe_dg n f i dat sz P p) = p := by
    show p % 256 + 256 * (p / 256 % 256) = p
    exact u16_roundtrip p (by omega)
  have hdrop : (subframe_dg n f i dat sz P p).drop PACKET_HEADER_SIZE
      = (List.range (if p < P - 1 then PACKET_MAX_PAYLOAD
          else if sz % PACKET_MAX_PAYLOAD ≠ 0 then sz % PACKET_MAX_PAYLOAD
          else PACKET_MAX_PAYLOAD)).map
        (fun j => dat.getD (p * PACKET_MAX_PAYLOAD + j) 0) := rfl
  unfold mlsp_decode_header
  rw [hF, hS, hsub, hPk, hpp, hlendg, hdrop]
  rw [if_neg (by unfold PACKET_HEADER_SIZE at *; omega),
    if_neg (by unfold PACKET_HEADER_SIZE PACKET_MAX_PAYLOAD at *; omega),
    if_neg (by omega), if_neg (by omega), if_neg (by omega),
    if_neg (by rw [hmn]; omega)]
  rw [Nat.add_sub_cancel_left]

/-- Preparing a never-touched slot (`reserved_size = 0`): the buffer and the
flags array are allocated and the flags are zeroed. -/
theorem new_subframe_fresh (c : CollectedFrame) (udp : MlspPacket)
    (hres : c.reserved_size = 0) (hpk : 1 ≤ udp.packets) :
    (mlsp_new_subframe c udp).dataAlloc = true
    ∧ (mlsp_new_subframe c udp).packets = udp.packets
    ∧ (mlsp_new_subframe c udp).collected_packets = 0
    ∧ (mlsp_new_subframe c udp).actual_size = 0
    ∧ (∀ q, q < udp.packets → (mlsp_new_subframe c udp).received_packets q = 0) := by
  simp only [mlsp_new_subframe]
  rw [if_pos (show c.reserved_size < udp.packets * PACKET_MAX_PAYLOAD by
    unfold PACKET_MAX_PAYLOAD
    omega)]
  split_ifs with hb
  · exact ⟨rfl, rfl, rfl, rfl, fun q hq => if_pos hq⟩
  · exact ⟨rfl, rfl, rfl, rfl, fun q hq => if_pos hq⟩

/-- The three outcomes of the deposit phase on a non-duplicate packet. -/
theorem mlsp_deposit_cases (m : MlspState) (udp : MlspPacket)
    (h0 : (m.collected.getD udp.subframe default).received_packets udp.packet = 0) :
    (¬ (m.collected.getD udp.subframe default).collected_packets + 1 = udp.packets →
      mlsp_deposit m udp
        = ({ m with
              collected := m.collected.set udp.subframe
                (depositedSlot (m.collected.getD udp.subframe default) udp) }, none))
    ∧ ((m.collected.getD udp.subframe default).collected_packets + 1 = udp.packets →
        ¬ sumFirst udp.subframes (m.received_subframes.set udp.subframe 1)
            = udp.subframes →
        mlsp_deposit m udp
          = ({ m with
              collected := m.collected.set udp.subframe
                (depositedSlot (m.collected.getD udp.subframe default) udp)
              received_subframes := m.received_subframes.set udp.subframe 1 }, none))
    ∧ ((m.collected.getD udp.subframe default).collected_packets + 1 = udp.packets →
        sumFirst udp.subframes (m.received_subframes.set udp.subframe 1)
            = udp.subframes →
        mlsp_deposit m udp
          = ({ m with
              collected := m.collected.set udp.subframe
                (depositedSlot (m.collected.getD udp.subframe default) udp)
              received_subframes := m.received_subframes.set udp.subframe 1
              frame := mlsp_decode_payload
                { m with
                  collected := m.collected.set udp.subframe
                    (depositedSlot (m.collected.getD udp.subframe default) udp)
                  received_subframes := m.received_subframes.set udp.subframe 1 }
                udp m.frame },
            some (mlsp_decode_payload
              { m with
                collected := m.collected.set udp.subframe
                  (depositedSlot (m.collected.getD udp.subframe default) udp)
                received_subframes := m.received_subframes.set udp.subframe 1 }
              udp m.frame))) := by
  refine ⟨?_, ?_, ?_⟩
  · intro hc
    simp only [mlsp_deposit]
    rw [if_neg (by omega),
      if_neg (show ¬ (depositedSlot (m.collected.getD udp.subframe default) udp).collected_packets
        = udp.packets from fun hcc => hc hcc)]
  · intro hc hn
    simp only [mlsp_deposit]
    rw [if_neg (by omega),
      if_pos (show (depositedSlot (m.collected.getD udp.subframe default) udp).collected_packets
        = udp.packets from hc),
      if_pos (show sumFirst udp.subframes (m.received_subframes.set udp.subframe 1)
        ≠ udp.subframes from hn)]
  · intro hc hs
    simp only [mlsp_deposit]
    rw [if_neg (by omega),
      if_pos (show (depositedSlot (m.collected.getD udp.subframe default) udp).collected_packets
        = udp.packets from hc),
      if_neg (show ¬ sumFirst udp.subframes (m.received_subframes.set udp.subframe 1)
        ≠ udp.subframes from fun hcc => hcc hs)]

/-- A frame switch preserves the pristine start-of-frame invariant. -/
theorem SubInv_new_frame (n f' : Nat) (data : List (List Nat)) (sizes : List Nat)
    (m : MlspState) (h : SubInv n data sizes 0 0 m) :
    SubInv n data sizes 0 0 (mlsp_new_frame m f') := by
  obtain ⟨⟨h1, h2, h3, h4, h5, h6⟩, h7, h8⟩ := h
  have hslot : ∀ s, s < MLSP_MAX_SUBFRAMES →
      ((mlsp_new_frame m f').collected.getD s default).dataAlloc = false
      ∧ ((mlsp_new_frame m f').collected.getD s default).reserved_size = 0
      ∧ ((mlsp_new_frame m f').collected.getD s default).packets = 0 := by
    intro s hs
    have hu : (m.collected.getD s default).dataAlloc = false
        ∧ (m.collected.getD s default).reserved_size = 0
        ∧ (m.collected.getD s default).packets = 0 := by
      rcases Nat.eq_zero_or_pos s with h0 | hpos
      · subst h0
        exact h7 rfl
      · exact h6 s hpos hs
    rw [new_frame_slot m f' s h2 hs]
    split_ifs
    · exact ⟨hu.1, hu.2.1, rfl⟩
    · exact hu
  refine ⟨⟨h1, ?_, ?_, ?_, ?_, ?_⟩, ?_, ?_⟩
  · rw [new_frame_length]
    exact h2
  · show (List.replicate MLSP_MAX_SUBFRAMES 0).length = MLSP_MAX_SUBFRAMES
    simp
  · intro j hj
    show (List.replicate MLSP_MAX_SUBFRAMES 0).getD j 0 = _
    rw [lgetD_replicate _ j 0 0 hj]
    simp
  · intro j hj
    omega
  · intro j hj h3j
    exact hslot j h3j
  · intro _
    exact hslot 0 (by unfold MLSP_MAX_SUBFRAMES; omega)
  · intro hp
    omega

/-- The freshly initialized endpoint satisfies the start invariant. -/
theorem SubInv_initial (n : Nat) (data : List (List Nat)) (sizes : List Nat) :
    SubInv n data sizes 0 0 (mlsp_initial n) := by
  have hslot : ∀ s, (mlsp_initial n).collected.getD s default = default := by
    intro s
    show (List.replicate MLSP_MAX_SUBFRAMES default).getD s default = default
    rcases Nat.lt_or_ge s MLSP_MAX_SUBFRAMES with hs | hs
    · exact lgetD_replicate _ s default default hs
    · exact List.getD_eq_default _ _ (by
        rw [List.length_replicate]
        exact hs)
  refine ⟨⟨rfl, by simp [mlsp_initial], by simp [mlsp_initial], ?_, ?_, ?_⟩, ?_, ?_⟩
  · intro j hj
    show (List.replicate MLSP_MAX_SUBFRAMES 0).getD j 0 = _
    rw [lgetD_replicate _ j 0 0 hj]
    simp
  · intro j hj
    omega
  · intro j hj h3j
    rw [hslot j]
    exact ⟨rfl, rfl, rfl⟩
  · intro _
    rw [hslot 0]
    exact ⟨rfl, rfl, rfl⟩
  · intro hp
    omega

theorem depositedSlot_facts (slot : CollectedFrame) (udp : MlspPacket) :
    (depositedSlot slot udp).dataAlloc = slot.dataAlloc
    ∧ (depositedSlot slot udp).packets = slot.packets
    ∧ (depositedSlot slot udp).collected_packets = slot.collected_packets + 1
    ∧ (depositedSlot slot udp).actual_size = slot.actual_size + udp.size
    ∧ (∀ q, (depositedSlot slot udp).received_packets q
        = if q = udp.packet then 1 else slot.received_packets q)
    ∧ (∀ idx, (depositedSlot slot udp).data idx
        = if udp.packet * PACKET_MAX_PAYLOAD ≤ idx ∧
            idx < udp.packet * PACKET_MAX_PAYLOAD + udp.size
          then udp.data.getD (idx - udp.packet * PACKET_MAX_PAYLOAD) 0
          else slot.data idx) :=
  ⟨rfl, rfl, rfl, rfl, fun _ => rfl, fun _ => rfl⟩

theorem deposited_data_prefix (slot : CollectedFrame) (udp : MlspPacket)
    (dat : List Nat) (p bound : Nat)
    (hupp : udp.packet = p)
    (hold : ∀ idx, idx < p * PACKET_MAX_PAYLOAD → slot.data idx = dat.getD idx 0)
    (hupdata : ∀ j, j < udp.size → udp.data.getD j 0 = dat.getD (p * PACKET_MAX_PAYLOAD + j) 0)
    (hb : bound ≤ p * PACKET_MAX_PAYLOAD + udp.size) :
    ∀ idx, idx < bound → (depositedSlot slot udp).data idx = dat.getD idx 0 := by
  intro idx hidx
  rw [(depositedSlot_facts slot udp).2.2.2.2.2 idx, hupp]
  by_cases hin : p * PACKET_MAX_PAYLOAD ≤ idx
  · rw [if_pos ⟨hin, by omega⟩, hupdata (idx - p * PACKET_MAX_PAYLOAD) (by omega)]
    congr 1
    omega
  · rw [if_neg (by omega)]
    exact hold idx (by omega)

theorem deposited_flags (slot : CollectedFrame) (udp : MlspPacket) (p P : Nat)
    (hupp : udp.packet = p)
    (hfl : ∀ q, q < P → slot.received_packets q = if q < p then 1 else 0) :
    ∀ q, q < P → (depositedSlot slot udp).received_packets q
      = if q < p + 1 then 1 else 0 := by
  intro q hq
  rw [(depositedSlot_facts slot udp).2.2.2.2.1 q, hupp]
  by_cases hqe : q = p
  · subst hqe
    rw [if_pos rfl, if_pos (by omega)]
  · rw [if_neg hqe, hfl q hq]
    by_cases h1 : q < p
    · rw [if_pos h1, if_pos (by omega)]
    · rw [if_neg h1, if_neg (by omega)]

theorem bits_after_set (rs : List Nat) (i : Nat) (hlen : rs.length = MLSP_MAX_SUBFRAMES)
    (hbits : ∀ j, j < MLSP_MAX_SUBFRAMES → rs.getD j 0 = if j < i then 1 else 0)
    (hi3 : i < MLSP_MAX_SUBFRAMES) :
    ∀ j, j < MLSP_MAX_SUBFRAMES → (rs.set i 1).getD j 0 = if j < i + 1 then 1 else 0 := by
  intro j hj
  by_cases hje : j = i
  · subst hje
    rw [lgetD_set_eq _ _ _ _ (by omega), if_pos (by omega)]
  · rw [lgetD_set_ne _ _ _ _ _ hje, hbits j hj]
    by_cases h1 : j < i
    · rw [if_pos h1, if_pos (by omega)]
    · rw [if_neg h1, if_neg (by omega)]

/-- Frame switch plus subframe preparation (lines 272-279) on a round-trip
state: the slot for subframe `i` ends up prepared, and the endpoint is on
frame `f`. -/
theorem rt_prepare (n f : Nat) (data : List (List Nat)) (sizes : List Nat)
    (i p : Nat) (m : MlspState) (udp : MlspPacket)
    (hn3 : n ≤ MLSP_MAX_SUBFRAMES) (hi : i < n)
    (hszpos : 1 ≤ sizes.getD i 0)
    (hInv : SubInv n data sizes i p m)
    (hfn : m.framenumber = f ∨ (m.framenumber < f ∧ i = 0 ∧ p = 0))
    (hupf : udp.framenumber = f) (hups : udp.subframe = i)
    (hupP : udp.packets = ceilPackets (sizes.getD i 0)) :
    ReadyInv n data sizes i p (mlsp_prepare m udp)
    ∧ (mlsp_prepare m udp).framenumber = f := by
  have hm1 : SubInv n data sizes i p (if m.framenumber < udp.framenumber
        then mlsp_new_frame m udp.framenumber else m)
      ∧ (if m.framenumber < udp.framenumber then mlsp_new_frame m udp.framenumber
          else m).framenumber = f := by
    rcases hfn with he | ⟨hlt, hie, hpe⟩
    · rw [hupf, he, if_neg (lt_irrefl f)]
      exact ⟨hInv, he⟩
    · subst hie
      subst hpe
      rw [hupf, if_pos hlt]
      exact ⟨SubInv_new_frame n f data sizes m hInv, rfl⟩
  simp only [mlsp_prepare]
  generalize hM : (if m.framenumber < udp.framenumber
    then mlsp_new_frame m udp.framenumber else m) = m1
  rw [hM] at hm1
  obtain ⟨⟨⟨hSn, hClen, hRlen, hBits, hDone, hFut⟩, h7, h8⟩, hfn1⟩ := hm1
  rw [hups]
  have hilen : i < m1.collected.length := by omega
  by_cases hp0 : p = 0
  · subst hp0
    obtain ⟨hu1, hu2, hu3⟩ := h7 rfl
    rw [if_pos (Or.inl (by rw [hu1]; exact Bool.false_ne_true))]
    have hfresh := new_subframe_fresh (m1.collected.getD i default) udp hu2
      (by rw [hupP]; exact ceilPackets_pos _ hszpos)
    have hgeq : ((m1.collected.set i
          (mlsp_new_subframe (m1.collected.getD i default) udp)).getD i default)
        = mlsp_new_subframe (m1.collected.getD i default) udp :=
      lgetD_set_eq _ _ _ _ hilen
    have hgne : ∀ j, j ≠ i → ((m1.collected.set i
          (mlsp_new_subframe (m1.collected.getD i default) udp)).getD j default)
        = m1.collected.getD j default :=
      fun j hj => lgetD_set_ne _ _ _ _ _ hj
    refine ⟨⟨⟨hSn, ?_, hRlen, hBits, ?_, ?_⟩, ?_, ?_, ?_, ?_, ?_, ?_⟩, hfn1⟩
    · show (m1.collected.set i _).length = MLSP_MAX_SUBFRAMES
      rw [List.length_set]
      exact hClen
    · intro j hj h3j
      show ((m1.collected.set i
            (mlsp_new_subframe (m1.collected.getD i default) udp)).getD j
              default).actual_size = sizes.getD j 0
        ∧ (∀ idx, idx < sizes.getD j 0 →
            ((m1.collected.set i
              (mlsp_new_subframe (m1.collected.getD i default) udp)).getD j
                default).data idx = (data.getD j []).getD idx 0)
      rw [hgne j (by omega)]
      exact hDone j hj h3j
    · intro j hj h3j
      show ((m1.collected.set i
            (mlsp_new_subframe (m1.collected.getD i default) udp)).getD j
              default).dataAlloc = false
        ∧ ((m1.collected.set i
            (mlsp_new_subframe (m1.collected.getD i default) udp)).getD j
              default).reserved_size = 0
        ∧ ((m1.collected.set i
            (mlsp_new_subframe (m1.collected.getD i default) udp)).getD j
              default).packets = 0
      rw [hgne j (by omega)]
      exact hFut j hj h3j
    · show ((m1.collected.set i _).getD i default).dataAlloc = true
      rw [hgeq]
      exact hfresh.1
    · show ((m1.collected.set i _).getD i default).packets = _
      rw [hgeq, hfresh.2.1, hupP]
    · show ((m1.collected.set i _).getD i default).collected_packets = 0
      rw [hgeq]
      exact hfresh.2.2.1
    · show ((m1.collected.set i _).getD i default).actual_size = 0 * PACKET_MAX_PAYLOAD
      rw [hgeq, hfresh.2.2.2.1]
      omega
    · intro q hq
      show ((m1.collected.set i _).getD i default).received_packets q = _
      rw [hgeq, hfresh.2.2.2.2 q (by rw [hupP]; exact hq)]
      rw [if_neg (by omega)]
    · intro idx hidx
      omega
  · obtain ⟨hr1, hr2, hr3, hr4, hr5, hr6⟩ := h8 (by omega)
    rw [if_neg (by
      rw [hr1, hr2, hupP]
      simp)]
    exact ⟨⟨⟨hSn, hClen, hRlen, hBits, hDone, hFut⟩, hr1, hr2, hr3, hr4, hr5, hr6⟩, hfn1⟩

/-- Deposit of packet `p` of subframe `i` on a prepared round-trip state:
the slot advances by one packet; at the terminal packet the subframe
completes, and at the last subframe the assembled frame is emitted with the
original sizes and bytes. -/
theorem rt_deposit (n f : Nat) (data : List (List Nat)) (sizes : List Nat)
    (i p : Nat) (m : MlspState) (udp : MlspPacket)
    (hn3 : n ≤ MLSP_MAX_SUBFRAMES)
    (hszpos : 1 ≤ sizes.getD i 0)
    (hi : i < n) (hp : p < ceilPackets (sizes.getD i 0))
    (hR : ReadyInv n data sizes i p m) (hmf : m.framenumber = f)
    (hups : udp.subframe = i) (hupS : udp.subframes = n)
    (hupP : udp.packets = ceilPackets (sizes.getD i 0)) (hupp : udp.packet = p)
    (hupsz : udp.size = (if p + 1 < ceilPackets (sizes.getD i 0) then PACKET_MAX_PAYLOAD
        else sizes.getD i 0 - (ceilPackets (sizes.getD i 0) - 1) * PACKET_MAX_PAYLOAD))
    (hupdata : ∀ j, j < udp.size →
        udp.data.getD j 0 = (data.getD i []).getD (p * PACKET_MAX_PAYLOAD + j) 0) :
    (mlsp_deposit m udp).1.framenumber = f
    ∧ (p + 1 < ceilPackets (sizes.getD i 0) →
        SubInv n data sizes i (p + 1) (mlsp_deposit m udp).1
        ∧ (mlsp_deposit m udp).2 = none)
    ∧ (p + 1 = ceilPackets (sizes.getD i 0) → i + 1 < n →
        SubInv n data sizes (i + 1) 0 (mlsp_deposit m udp).1
        ∧ (mlsp_deposit m udp).2 = none)
    ∧ (p + 1 = ceilPackets (sizes.getD i 0) → i + 1 = n →
        ∃ fr, (mlsp_deposit m udp).2 = some fr ∧ fr.framenumber = f
          ∧ ∀ j, j < n → fr.size.getD j 0 = sizes.getD j 0
            ∧ ∃ buf, fr.data.getD j none = some buf
              ∧ ∀ idx, idx < sizes.getD j 0 → buf idx = (data.getD j []).getD idx 0) := by
  obtain ⟨⟨hSn, hClen, hRlen, hBits, hDone, hFut⟩, hAl, hPk, hCp, hAs, hFl, hDat⟩ := hR
  have hilen : i < m.collected.length := by omega
  have h0 : (m.collected.getD udp.subframe default).received_packets udp.packet = 0 := by
    rw [hups, hupp, hFl p hp]
    simp
  have hcases := mlsp_deposit_cases m udp h0
  rw [hups] at hcases
  have hDS := depositedSlot_facts (m.collected.getD i default) udp
  have hflags := deposited_flags (m.collected.getD i default) udp p
    (ceilPackets (sizes.getD i 0)) hupp hFl
  have hcb := ceilPackets_bounds (sizes.getD i 0) hszpos
  refine ⟨by rw [mlsp_deposit_framenumber]; exact hmf, ?_, ?_, ?_⟩
  · -- non-terminal packet: the slot advances to p + 1 packets
    intro hplt
    have hnc : ¬ (m.collected.getD i default).collected_packets + 1 = udp.packets := by
      rw [hCp, hupP]
      omega
    have heq := hcases.1 hnc
    rw [heq]
    have hsz1400 : udp.size = PACKET_MAX_PAYLOAD := by
      rw [hupsz, if_pos hplt]
    refine ⟨⟨⟨hSn, ?_, hRlen, hBits, ?_, ?_⟩, fun hz => absurd hz (by omega),
      fun _ => ?_⟩, rfl⟩
    · show (m.collected.set i (depositedSlot (m.collected.getD i default) udp)).length
        = MLSP_MAX_SUBFRAMES
      rw [List.length_set]
      exact hClen
    · intro j hj h3j
      show ((m.collected.set i (depositedSlot (m.collected.getD i default) udp)).getD j
            default).actual_size = sizes.getD j 0
        ∧ (∀ idx, idx < sizes.getD j 0 →
            ((m.collected.set i (depositedSlot (m.collected.getD i default) udp)).getD j
              default).data idx = (data.getD j []).getD idx 0)
      rw [lgetD_set_ne _ _ _ _ _ (by omega)]
      exact hDone j hj h3j
    · intro j hj h3j
      show ((m.collected.set i (depositedSlot (m.collected.getD i default) udp)).getD j
            default).dataAlloc = false
        ∧ ((m.collected.set i (depositedSlot (m.collected.getD i default) udp)).getD j
            default).reserved_size = 0
        ∧ ((m.collected.set i (depositedSlot (m.collected.getD i default) udp)).getD j
            default).packets = 0
      rw [lgetD_set_ne _ _ _ _ _ (by omega)]
      exact hFut j hj h3j
    · have hgeq : ((m.collected.set i
          (depositedSlot (m.collected.getD i default) udp)).getD i default)
          = depositedSlot (m.collected.getD i default) udp :=
        lgetD_set_eq _ _ _ _ hilen
      show ((m.collected.set i (depositedSlot (m.collected.getD i default) udp)).getD i
            default).dataAlloc = true
        ∧ _
      rw [hgeq]
      refine ⟨by rw [hDS.1]; exact hAl, by rw [hDS.2.1]; exact hPk,
        by rw [hDS.2.2.1, hCp], ?_, hflags, ?_⟩
      · rw [hDS.2.2.2.1, hAs, hsz1400]
        ring
      · intro idx hidx
        exact deposited_data_prefix (m.collected.getD i default) udp (data.getD i [])
          p ((p + 1) * PACKET_MAX_PAYLOAD) hupp hDat hupdata
          (by rw [hsz1400]; ring_nf; omega) idx hidx
  · -- terminal packet of a non-final subframe
    intro hceq hilt
    have hcomp : (m.collected.getD i default).collected_packets + 1 = udp.packets := by
      rw [hCp, hupP]
      exact hceq
    have hbits' := bits_after_set m.received_subframes i hRlen hBits (by omega)
    have hcount : sumFirst udp.subframes (m.received_subframes.set i 1) = i + 1 := by
      rw [hupS, sumFirst_of_pointwise _ (i + 1) n (fun j hj => hbits' j (by omega))]
      exact Nat.min_eq_left (by omega)
    have hcne : ¬ sumFirst udp.subframes (m.received_subframes.set i 1) = udp.subframes := by
      rw [hcount, hupS]
      omega
    have heq := hcases.2.1 hcomp hcne
    rw [heq]
    have hactual : (m.collected.getD i default).actual_size + udp.size = sizes.getD i 0 := by
      rw [hAs, hupsz, if_neg (by omega)]
      have h1 := hcb.1
      have h2 := hcb.2
      unfold PACKET_MAX_PAYLOAD at *
      omega
    have hdata_full : ∀ idx, idx < sizes.getD i 0 →
        (depositedSlot (m.collected.getD i default) udp).data idx
          = (data.getD i []).getD idx 0 := by
      apply deposited_data_prefix _ _ _ p _ hupp hDat hupdata
      rw [hupsz, if_neg (by omega)]
      have h1 := hcb.1
      unfold PACKET_MAX_PAYLOAD at *
      omega
    refine ⟨⟨⟨hSn, ?_, ?_, ?_, ?_, ?_⟩, fun _ => ?_,
      fun hz => absurd hz (by omega)⟩, rfl⟩
    · show (m.collected.set i (depositedSlot (m.collected.getD i default) udp)).length
        = MLSP_MAX_SUBFRAMES
      rw [List.length_set]
      exact hClen
    · show (m.received_subframes.set i 1).length = MLSP_MAX_SUBFRAMES
      rw [List.length_set]
      exact hRlen
    · exact hbits'
    · intro j hj h3j
      show ((m.collected.set i (depositedSlot (m.collected.getD i default) udp)).getD j
            default).actual_size = sizes.getD j 0
        ∧ (∀ idx, idx < sizes.getD j 0 →
            ((m.collected.set i (depositedSlot (m.collected.getD i default) udp)).getD j
              default).data idx = (data.getD j []).getD idx 0)
      by_cases hji : j = i
      · subst hji
        rw [lgetD_set_eq _ _ _ _ hilen]
        refine ⟨by rw [hDS.2.2.2.1]; exact hactual, hdata_full⟩
      · rw [lgetD_set_ne _ _ _ _ _ hji]
        exact hDone j (by omega) h3j
    · intro j hj h3j
      show ((m.collected.set i (depositedSlot (m.collected.getD i default) udp)).getD j
            default).dataAlloc = false
        ∧ ((m.collected.set i (depositedSlot (m.collected.getD i default) udp)).getD j
            default).reserved_size = 0
        ∧ ((m.collected.set i (depositedSlot (m.collected.getD i default) udp)).getD j
            default).packets = 0
      rw [lgetD_set_ne _ _ _ _ _ (by omega)]
      exact hFut j (by omega) h3j
    · show ((m.collected.set i (depositedSlot (m.collected.getD i default) udp)).getD (i + 1)
            default).dataAlloc = false
        ∧ ((m.collected.set i (depositedSlot (m.collected.getD i default) udp)).getD (i + 1)
            default).reserved_size = 0
        ∧ ((m.collected.set i (depositedSlot (m.collected.getD i default) udp)).getD (i + 1)
            default).packets = 0
      rw [lgetD_set_ne _ _ _ _ _ (by omega)]
      exact hFut (i + 1) (by omega) (by omega)
  · -- terminal packet of the final subframe: emission
    intro hceq hlast
    have hcomp : (m.collected.getD i default).collected_packets + 1 = udp.packets := by
      rw [hCp, hupP]
      exact hceq
    have hbits' := bits_after_set m.received_subframes i hRlen hBits (by omega)
    have hcount : sumFirst udp.subframes (m.received_subframes.set i 1) = i + 1 := by
      rw [hupS, sumFirst_of_pointwise _ (i + 1) n (fun j hj => hbits' j (by omega))]
      exact Nat.min_eq_left (by omega)
    have hceq2 : sumFirst udp.subframes (m.received_subframes.set i 1) = udp.subframes := by
      rw [hcount, hupS]
      omega
    have heq := hcases.2.2 hcomp hceq2
    rw [heq]
    have hactual : (m.collected.getD i default).actual_size + udp.size = sizes.getD i 0 := by
      rw [hAs, hupsz, if_neg (by omega)]
      have h1 := hcb.1
      have h2 := hcb.2
      unfold PACKET_MAX_PAYLOAD at *
      omega
    have hdata_full : ∀ idx, idx < sizes.getD i 0 →
        (depositedSlot (m.collected.getD i default) udp).data idx
          = (data.getD i []).getD idx 0 := by
      apply deposited_data_prefix _ _ _ p _ hupp hDat hupdata
      rw [hupsz, if_neg (by omega)]
      have h1 := hcb.1
      unfold PACKET_MAX_PAYLOAD at *
      omega
    have hfields := decode_payload_fields
      { m with
        collected := m.collected.set i (depositedSlot (m.collected.getD i default) udp)
        received_subframes := m.received_subframes.set i 1 }
      udp m.frame
      (show udp.subframes ≤ m.subframes by omega)
      (show m.subframes ≤ MLSP_MAX_SUBFRAMES by omega)
    refine ⟨_, rfl, ?_, ?_⟩
    · rw [hfields.1]
      exact hmf
    · intro j hj
      have hj2 : j < udp.subframes := by omega
      obtain ⟨hszj, hdataj⟩ := hfields.2.1 j hj2
      constructor
      · rw [hszj]
        show ((m.collected.set i (depositedSlot (m.collected.getD i default) udp)).getD j
            default).actual_size = sizes.getD j 0
        by_cases hji : j = i
        · subst hji
          rw [lgetD_set_eq _ _ _ _ hilen, hDS.2.2.2.1]
          exact hactual
        · rw [lgetD_set_ne _ _ _ _ _ hji]
          exact (hDone j (by omega) (by omega)).1
      · by_cases hji : j = i
        · subst hji
          refine ⟨(depositedSlot (m.collected.getD j default) udp).data, ?_, hdata_full⟩
          rw [hdataj]
          show some ((m.collected.set j (depositedSlot (m.collected.getD j default) udp)).getD j
              default).data = _
          rw [lgetD_set_eq _ _ _ _ hilen]
        · refine ⟨(m.collected.getD j default).data, ?_, (hDone j (by omega) (by omega)).2⟩
          rw [hdataj]
          show some ((m.collected.set i (depositedSlot (m.collected.getD i default) udp)).getD j
              default).data = _
          rw [lgetD_set_ne _ _ _ _ _ hji]

/-- One receive-loop iteration on the in-order round-trip stream: datagram
`p` of subframe `i` advances the invariant, completes the subframe at its
terminal packet, and emits the assembled frame at the very last packet of
the last subframe. -/
theorem rt_step (n f : Nat) (data : List (List Nat)) (sizes : List Nat)
    (i p : Nat) (m : MlspState)
    (hn3 : n ≤ MLSP_MAX_SUBFRAMES) (hf : f < 65536)
    (hszpos : 1 ≤ sizes.getD i 0)
    (hszb : sizes.getD i 0 ≤ PACKET_MAX_PAYLOAD * 65535)
    (hi : i < n) (hp : p < ceilPackets (sizes.getD i 0))
    (hInv : SubInv n data sizes i p m)
    (hfn : m.framenumber = f ∨ (m.framenumber < f ∧ i = 0 ∧ p = 0)) :
    (mlsp_receive_step m (subframe_dg n f i (data.getD i []) (sizes.getD i 0)
        (ceilPackets (sizes.getD i 0)) p)).1.framenumber = f
    ∧ (p + 1 < ceilPackets (sizes.getD i 0) →
        SubInv n data sizes i (p + 1) (mlsp_receive_step m (subframe_dg n f i
          (data.getD i []) (sizes.getD i 0) (ceilPackets (sizes.getD i 0)) p)).1
        ∧ (mlsp_receive_step m (subframe_dg n f i (data.getD i []) (sizes.getD i 0)
            (ceilPackets (sizes.getD i 0)) p)).2 = none)
    ∧ (p + 1 = ceilPackets (sizes.getD i 0) → i + 1 < n →
        SubInv n data sizes (i + 1) 0 (mlsp_receive_step m (subframe_dg n f i
          (data.getD i []) (sizes.getD i 0) (ceilPackets (sizes.getD i 0)) p)).1
        ∧ (mlsp_receive_step m (subframe_dg n f i (data.getD i []) (sizes.getD i 0)
            (ceilPackets (sizes.getD i 0)) p)).2 = none)
    ∧ (p + 1 = ceilPackets (sizes.getD i 0) → i + 1 = n →
        ∃ fr, (mlsp_receive_step m (subframe_dg n f i (data.getD i []) (sizes.getD i 0)
            (ceilPackets (sizes.getD i 0)) p)).2 = some fr
          ∧ fr.framenumber = f
          ∧ ∀ j, j < n → fr.size.getD j 0 = sizes.getD j 0
            ∧ ∃ buf, fr.data.getD j none = some buf
              ∧ ∀ idx, idx < sizes.getD j 0 → buf idx = (data.getD j []).getD idx 0) := by
  have hSn : m.subframes = n := hInv.1.1
  have hmf : m.framenumber ≤ f := by
    rcases hfn with he | ⟨hlt, -, -⟩ <;> omega
  have hPle := ceilPackets_le _ hszb
  have hdec := decode_subframe_dg m n f i (sizes.getD i 0)
    (ceilPackets (sizes.getD i 0)) p (data.getD i []) hSn hmf hn3 hf hi hPle hp
  rw [receive_step_of_decode_some m _ _ hdec]
  have hprep := rt_prepare n f data sizes i p m
    { framenumber := f
      subframes := n
      subframe := i
      packets := ceilPackets (sizes.getD i 0)
      packet := p
      data := (List.range (if p < ceilPackets (sizes.getD i 0) - 1 then PACKET_MAX_PAYLOAD
          else if sizes.getD i 0 % PACKET_MAX_PAYLOAD ≠ 0
          then sizes.getD i 0 % PACKET_MAX_PAYLOAD
          else PACKET_MAX_PAYLOAD)).map
        (fun j => (data.getD i []).getD (p * PACKET_MAX_PAYLOAD + j) 0)
      size := if p < ceilPackets (sizes.getD i 0) - 1 then PACKET_MAX_PAYLOAD
          else if sizes.getD i 0 % PACKET_MAX_PAYLOAD ≠ 0
          then sizes.getD i 0 % PACKET_MAX_PAYLOAD
          else PACKET_MAX_PAYLOAD }
    hn3 hi hszpos hInv hfn rfl rfl rfl
  exact rt_deposit n f data sizes i p _ _ hn3 hszpos hi hp hprep.1 hprep.2
    rfl rfl rfl rfl (subframe_dg_payload_size (sizes.getD i 0) p hszpos)
    (fun j hj => lgetD_range_map
      (fun j => (data.getD i []).getD (p * PACKET_MAX_PAYLOAD + j) 0) _ j 0 hj)

theorem mlsp_receive_cons_some (m m1 : MlspState) (fr : mlsp_frame) (dg : List Nat)
    (rest : List (List Nat)) (h : mlsp_receive_step m dg = (m1, some fr)) :
    mlsp_receive m (dg :: rest) = (m1, some fr) := by
  simp [mlsp_receive, h]

/-- Processing the remaining packets `p, p+1, …` of subframe `i` in order:
for a non-final subframe the state advances to the start of subframe
`i + 1` with no emission; for the final subframe the assembled frame is
returned. -/
theorem rt_subframe (n f : Nat) (data : List (List Nat)) (sizes : List Nat) (i : Nat)
    (hn3 : n ≤ MLSP_MAX_SUBFRAMES) (hf : f < 65536)
    (hszpos : 1 ≤ sizes.getD i 0)
    (hszb : sizes.getD i 0 ≤ PACKET_MAX_PAYLOAD * 65535)
    (hi : i < n) :
    ∀ (k p : Nat) (m : MlspState) (rest : List (List Nat)),
      p + (k + 1) = ceilPackets (sizes.getD i 0) →
      SubInv n data sizes i p m →
      (m.framenumber = f ∨ (m.framenumber < f ∧ i = 0 ∧ p = 0)) →
      (i + 1 < n →
        ∃ m', SubInv n data sizes (i + 1) 0 m' ∧ m'.framenumber = f
          ∧ mlsp_receive m (((List.range' p (k + 1)).map
              (subframe_dg n f i (data.getD i []) (sizes.getD i 0)
                (ceilPackets (sizes.getD i 0)))) ++ rest)
            = mlsp_receive m' rest)
      ∧ (i + 1 = n →
        ∃ fr, (mlsp_receive m (((List.range' p (k + 1)).map
              (subframe_dg n f i (data.getD i []) (sizes.getD i 0)
                (ceilPackets (sizes.getD i 0)))) ++ rest)).2 = some fr
          ∧ fr.framenumber = f
          ∧ ∀ j, j < n → fr.size.getD j 0 = sizes.getD j 0
            ∧ ∃ buf, fr.data.getD j none = some buf
              ∧ ∀ idx, idx < sizes.getD j 0 → buf idx = (data.getD j []).getD idx 0) := by
  intro k
  induction k with
  | zero =>
    intro p m rest hpk hInv hfn
    have hstep := rt_step n f data sizes i p m hn3 hf hszpos hszb hi (by omega) hInv hfn
    have hlist : ((List.range' p 1).map
        (subframe_dg n f i (data.getD i []) (sizes.getD i 0)
          (ceilPackets (sizes.getD i 0)))) ++ rest
        = (subframe_dg n f i (data.getD i []) (sizes.getD i 0)
            (ceilPackets (sizes.getD i 0)) p) :: rest := rfl
    constructor
    · intro hilt
      obtain ⟨hI', hr⟩ := hstep.2.2.1 (by omega) hilt
      have hsp : mlsp_receive_step m (subframe_dg n f i (data.getD i [])
            (sizes.getD i 0) (ceilPackets (sizes.getD i 0)) p)
          = ((mlsp_receive_step m (subframe_dg n f i (data.getD i [])
              (sizes.getD i 0) (ceilPackets (sizes.getD i 0)) p)).1, none) := by
        rw [← hr]
      refine ⟨_, hI', hstep.1, ?_⟩
      rw [hlist]
      exact mlsp_receive_cons_none _ _ _ _ hsp
    · intro hlast
      obtain ⟨fr, hr, hfrf, hprops⟩ := hstep.2.2.2 (by omega) hlast
      have hsp : mlsp_receive_step m (subframe_dg n f i (data.getD i [])
            (sizes.getD i 0) (ceilPackets (sizes.getD i 0)) p)
          = ((mlsp_receive_step m (subframe_dg n f i (data.getD i [])
              (sizes.getD i 0) (ceilPackets (sizes.getD i 0)) p)).1, some fr) := by
        rw [← hr]
      refine ⟨fr, ?_, hfrf, hprops⟩
      rw [hlist, mlsp_receive_cons_some _ _ _ _ _ hsp]
  | succ k ih =>
    intro p m rest hpk hInv hfn
    have hstep := rt_step n f data sizes i p m hn3 hf hszpos hszb hi (by omega) hInv hfn
    obtain ⟨hI', hr⟩ := hstep.2.1 (by omega)
    have hsp : mlsp_receive_step m (subframe_dg n f i (data.getD i [])
          (sizes.getD i 0) (ceilPackets (sizes.getD i 0)) p)
        = ((mlsp_receive_step m (subframe_dg n f i (data.getD i [])
            (sizes.getD i 0) (ceilPackets (sizes.getD i 0)) p)).1, none) := by
      rw [← hr]
    have hlist : ((List.range' p (k + 1 + 1)).map
        (subframe_dg n f i (data.getD i []) (sizes.getD i 0)
          (ceilPackets (sizes.getD i 0)))) ++ rest
        = (subframe_dg n f i (data.getD i []) (sizes.getD i 0)
            (ceilPackets (sizes.getD i 0)) p)
          :: (((List.range' (p + 1) (k + 1)).map
            (subframe_dg n f i (data.getD i []) (sizes.getD i 0)
              (ceilPackets (sizes.getD i 0)))) ++ rest) := rfl
    have hrec := ih (p + 1) (mlsp_receive_step m (subframe_dg n f i (data.getD i [])
        (sizes.getD i 0) (ceilPackets (sizes.getD i 0)) p)).1 rest
      (by omega) hI' (Or.inl hstep.1)
    constructor
    · intro hilt
      obtain ⟨m', hI2, hf2, he⟩ := hrec.1 hilt
      refine ⟨m', hI2, hf2, ?_⟩
      rw [hlist, mlsp_receive_cons_none _ _ _ _ hsp]
      exact he
    · intro hlast
      obtain ⟨fr, he, hfrf, hprops⟩ := hrec.2 hlast
      refine ⟨fr, ?_, hfrf, hprops⟩
      rw [hlist, mlsp_receive_cons_none _ _ _ _ hsp]
      exact he

/-- Processing the datagrams of subframes `i, i+1, …, n-1` in order from a
state satisfying the reassembly invariant yields the fully assembled frame. -/
theorem rt_frames (n f : Nat) (data : List (List Nat)) (sizes : List Nat)
    (hn3 : n ≤ MLSP_MAX_SUBFRAMES) (hf : f < 65536)
    (hpos : ∀ j, j < n → 1 ≤ sizes.getD j 0)
    (hbound : ∀ j, j < n → sizes.getD j 0 ≤ PACKET_MAX_PAYLOAD * 65535) :
    ∀ (c i : Nat) (m : MlspState), i + (c + 1) = n →
      SubInv n data sizes i 0 m →
      (m.framenumber = f ∨ (m.framenumber < f ∧ i = 0)) →
      ∃ fr, (mlsp_receive m (((List.range' i (c + 1)).map
          (fun j => mlsp_send_subframe n f j (data.getD j []) (sizes.getD j 0))).flatten)).2
        = some fr
        ∧ fr.framenumber = f
        ∧ ∀ j, j < n → fr.size.getD j 0 = sizes.getD j 0
          ∧ ∃ buf, fr.data.getD j none = some buf
            ∧ ∀ idx, idx < sizes.getD j 0 → buf idx = (data.getD j []).getD idx 0 := by
  intro c
  induction c with
  | zero =>
    intro i m hin hInv hfn
    have hi : i < n := by omega
    have hsz := hpos i hi
    have hb := hbound i hi
    have hc1 : (ceilPackets (sizes.getD i 0) - 1) + 1 = ceilPackets (sizes.getD i 0) := by
      have := ceilPackets_pos _ hsz
      omega
    have hfn' : m.framenumber = f ∨ (m.framenumber < f ∧ i = 0 ∧ 0 = 0) := by
      rcases hfn with h | ⟨h1, h2⟩
      · exact Or.inl h
      · exact Or.inr ⟨h1, h2, rfl⟩
    obtain ⟨fr, he, hfrf, hprops⟩ :=
      (rt_subframe n f data sizes i hn3 hf hsz hb hi
        (ceilPackets (sizes.getD i 0) - 1) 0 m []
        (by omega) hInv hfn').2 (by omega)
    rw [hc1] at he
    refine ⟨fr, ?_, hfrf, hprops⟩
    have hlist : ((List.range' i 1).map
        (fun j => mlsp_send_subframe n f j (data.getD j []) (sizes.getD j 0))).flatten
        = mlsp_send_subframe n f i (data.getD i []) (sizes.getD i 0) ++ [] := rfl
    rw [hlist, send_subframe_as_map n f i (data.getD i []) (sizes.getD i 0) hb,
      List.range_eq_range']
    exact he
  | succ c ih =>
    intro i m hin hInv hfn
    have hi : i < n := by omega
    have hsz := hpos i hi
    have hb := hbound i hi
    have hc1 : (ceilPackets (sizes.getD i 0) - 1) + 1 = ceilPackets (sizes.getD i 0) := by
      have := ceilPackets_pos _ hsz
      omega
    have hfn' : m.framenumber = f ∨ (m.framenumber < f ∧ i = 0 ∧ 0 = 0) := by
      rcases hfn with h | ⟨h1, h2⟩
      · exact Or.inl h
      · exact Or.inr ⟨h1, h2, rfl⟩
    obtain ⟨m', hI', hf', he⟩ :=
      (rt_subframe n f data sizes i hn3 hf hsz hb hi
        (ceilPackets (sizes.getD i 0) - 1) 0 m
        (((List.range' (i + 1) (c + 1)).map
          (fun j => mlsp_send_subframe n f j (data.getD j []) (sizes.getD j 0))).flatten)
        (by omega) hInv hfn').1 (by omega)
    rw [hc1] at he
    obtain ⟨fr, hfr2, hfrf, hprops⟩ := ih (i + 1) m' (by omega) hI' (Or.inl hf')
    refine ⟨fr, ?_, hfrf, hprops⟩
    have hlist : ((List.range' i (c + 1 + 1)).map
        (fun j => mlsp_send_subframe n f j (data.getD j []) (sizes.getD j 0))).flatten
        = mlsp_send_subframe n f i (data.getD i []) (sizes.getD i 0)
          ++ ((List.range' (i + 1) (c + 1)).map
            (fun j => mlsp_send_subframe n f j (data.getD j []) (sizes.getD j 0))).flatten := rfl
    rw [hlist, send_subframe_as_map n f i (data.getD i []) (sizes.getD i 0) hb,
      List.range_eq_range', he]
    exact hfr2

theorem map_getD_range (l : List Nat) :
    (List.range l.length).map (fun idx => l.getD idx 0) = l := by
  apply List.ext_getElem
  · simp
  · intro i h1 h2
    simp [List.getD_eq_getElem?_getD, List.getElem?_eq_getElem h2]

/-- **C1 (amended).** Round trip over a lossless in-order channel: for every
frame whose subframe count matches the configured count of both endpoints,
whose framenumber fits in 16 bits, and each of whose subframe sizes is at
least 1 and at most `PACKET_MAX_PAYLOAD * 65535`, feeding the datagrams of
`mlsp_send` in order to `mlsp_receive` on a fresh peer yields a frame with
the same framenumber, the same per-subframe sizes, and byte-identical
per-subframe contents. -/
theorem round_trip (n : Nat) (F : SendFrame)
    (hn1 : 1 ≤ n) (hn3 : n ≤ MLSP_MAX_SUBFRAMES) (hf : F.framenumber < 65536)
    (hlen : ∀ j, j < n → (F.data.getD j []).length = F.size.getD j 0)
    (hpos : ∀ j, j < n → 1 ≤ F.size.getD j 0)
    (hbound : ∀ j, j < n → F.size.getD j 0 ≤ PACKET_MAX_PAYLOAD * 65535) :
    ∃ fr, (mlsp_receive (mlsp_initial n) (mlsp_send n F)).2 = some fr
      ∧ fr.framenumber = F.framenumber
      ∧ ∀ j, j < n → fr.size.getD j 0 = F.size.getD j 0
        ∧ ∃ buf, fr.data.getD j none = some buf
          ∧ (List.range (F.size.getD j 0)).map buf = F.data.getD j [] := by
  obtain ⟨c, hc⟩ : ∃ c, n = c + 1 := ⟨n - 1, by omega⟩
  have hfn0 : (mlsp_initial n).framenumber = F.framenumber
      ∨ ((mlsp_initial n).framenumber < F.framenumber ∧ 0 = 0) := by
    rcases Nat.eq_zero_or_pos F.framenumber with h0 | hp
    · exact Or.inl h0.symm
    · exact Or.inr ⟨hp, rfl⟩
  obtain ⟨fr, he, hfrf, hprops⟩ := rt_frames n F.framenumber F.data F.size hn3 hf
    hpos hbound c 0 (mlsp_initial n) (by omega)
    (SubInv_initial n F.data F.size) hfn0
  have hsend : mlsp_send n F = ((List.range' 0 (c + 1)).map
      (fun j => mlsp_send_subframe n F.framenumber j
        (F.data.getD j []) (F.size.getD j 0))).flatten := by
    rw [show mlsp_send n F = ((List.range n).map
        (fun j => mlsp_send_subframe n F.framenumber j
          (F.data.getD j []) (F.size.getD j 0))).flatten from rfl,
      List.range_eq_range', hc]
  refine ⟨fr, ?_, hfrf, ?_⟩
  · rw [hsend]
    exact he
  · intro j hj
    obtain ⟨hsz, buf, hbuf, hbytes⟩ := hprops j hj
    refine ⟨hsz, buf, hbuf, ?_⟩
    have h2 := map_getD_range (F.data.getD j [])
    rw [hlen j hj] at h2
    rw [← h2]
    exact List.map_congr_left (fun idx hidx => hbytes idx (List.mem_range.mp hidx))

/-- **C1, counterexample to the original claim.** A subframe of size 0 is
within every representable-size limit, yet `mlsp_send` emits no datagram at
all for it, so the peer never completes the frame and `mlsp_receive` returns
nothing: the round trip fails. -/
theorem round_trip_cex :
    mlsp_send 1 ⟨1, [[]], [0]⟩ = []
    ∧ (mlsp_receive (mlsp_initial 1) (mlsp_send 1 ⟨1, [[]], [0]⟩)).2 = none :=
  ⟨rfl, rfl⟩

/-- Concrete instance of the round trip: one subframe carrying the five
bytes of "HELLO" with framenumber 7. -/
theorem round_trip_witness :
    ∃ fr, (mlsp_receive (mlsp_initial 1)
        (mlsp_send 1 ⟨7, [[72, 69, 76, 76, 79]], [5]⟩)).2 = some fr
      ∧ fr.framenumber = (⟨7, [[72, 69, 76, 76, 79]], [5]⟩ : SendFrame).framenumber
      ∧ ∀ j, j < 1 →
        fr.size.getD j 0 = (⟨7, [[72, 69, 76, 76, 79]], [5]⟩ : SendFrame).size.getD j 0
        ∧ ∃ buf, fr.data.getD j none = some buf
          ∧ (List.range ((⟨7, [[72, 69, 76, 76, 79]], [5]⟩ : SendFrame).size.getD j 0)).map buf
            = (⟨7, [[72, 69, 76, 76, 79]], [5]⟩ : SendFrame).data.getD j [] :=
  round_trip 1 ⟨7, [[72, 69, 76, 76, 79]], [5]⟩ (by decide) (by decide) (by decide)
    (by decide) (by decide) (by decide)

/-- Concrete check of the deposit semantics: on a fresh endpoint a first
copy of packet 0 of subframe 0 is counted once, and an immediately
re-delivered identical copy is dropped with the state unchanged. -/
theorem deposit_duplicate_suppression_witness :
    (((mlsp_deposit (mlsp_initial 1)
        ⟨0, 1, 0, 1, 0, [42], 1⟩).1.collected.getD 0 default).received_packets 0 = 1
      ∧ ((mlsp_deposit (mlsp_initial 1)
          ⟨0, 1, 0, 1, 0, [42], 1⟩).1.collected.getD 0 default).collected_packets
        = ((mlsp_initial 1).collected.getD 0 default).collected_packets + 1)
    ∧ mlsp_deposit (mlsp_deposit (mlsp_initial 1) ⟨0, 1, 0, 1, 0, [42], 1⟩).1
        ⟨0, 1, 0, 1, 0, [42], 1⟩
      = ((mlsp_deposit (mlsp_initial 1) ⟨0, 1, 0, 1, 0, [42], 1⟩).1, none) := by
  constructor
  · have h := deposit_duplicate_suppression (mlsp_initial 1) ⟨0, 1, 0, 1, 0, [42], 1⟩
      (by decide) (by decide)
    exact ⟨(h.2 rfl).1, (h.2 rfl).2.2.1⟩
  · have h := deposit_duplicate_suppression
      (mlsp_deposit (mlsp_initial 1) ⟨0, 1, 0, 1, 0, [42], 1⟩).1
      ⟨0, 1, 0, 1, 0, [42], 1⟩ (by decide) (by decide)
    exact h.1 (by decide)
